import Mathlib

/-!
Shallow embedding of the TTS job pipeline of `libreader-ui`
(`src/edge-tts-service/app.py` and `src/espeak-tts-service/app.py`).

The two services share a data model: a Redis-backed Job Store holding JSON
job records with a TTL, and an on-disk Audio Cache keyed by segment id.
We model the Redis store as an association list from key to
(record, absolute expiry time), the filesystem cache as an association list
from file name to byte size, and the clock as a natural number held in the
state.  Each service is embedded in its own namespace with its concrete
key prefix, file extension and media type, mirroring the Python line by line.

The synthesis backends (edge-tts streaming, espeak-ng subprocess) are
external collaborators; a run of the backend is represented by an explicit
outcome value fed to the executor, exactly reflecting the information the
Python code extracts from it.
-/

/-- Job status strings used in the records: "pending", "processing",
"completed", "failed". -/
inductive Status
  | pending
  | processing
  | completed
  | failed
  deriving DecidableEq, Repr

/-- Rank of a status along the lifecycle; terminal states share the top rank. -/
def Status.rank : Status → Nat
  | .pending => 0
  | .processing => 1
  | .completed => 2
  | .failed => 2

/-- A terminal status. -/
def Status.isTerminal : Status → Bool
  | .completed => true
  | .failed => true
  | _ => false

/-- Render of a status as in the Python string field. -/
def Status.str : Status → String
  | .pending => "pending"
  | .processing => "processing"
  | .completed => "completed"
  | .failed => "failed"

/-- One word-timing marker as collected by the edge service:
(text, raw offset, raw duration) in the backend's 100 ns units.
(The Python presentation divides by 10000 for milliseconds; that float
conversion is presentation only and carried raw here.) -/
abbrev WordTiming := String × Nat × Nat

/-- One entry of a job record's `segments` list.  The espeak service's
segment dicts have no `word_timings` key, modelled as `none`. -/
structure Segment where
  id : String
  index : Nat
  status : Status
  audio_url : String
  file_size : Nat
  format : String
  word_timings : Option (List WordTiming)
  deriving DecidableEq, Repr

/-- The job record stored (as JSON) in Redis.  `prefer_phonemes` exists only
in espeak records, modelled as `none` for edge records. -/
structure JobRecord where
  job_id : String
  status : Status
  created_at : String
  text_length : Nat
  voice : String
  prefer_phonemes : Option Bool
  segments : List Segment
  error : Option String
  deriving DecidableEq, Repr

/-- Shared mutable state: the Redis job store (key ↦ record, absolute expiry),
the audio cache directory (file name ↦ byte size), and the clock. -/
structure Store where
  jobs : List (String × JobRecord × Nat)
  cache : List (String × Nat)
  now : Nat
  deriving DecidableEq, Repr

/-- `SET key value EX e`: replaces any entry for the key and arms a fresh TTL
of `e` seconds from now. -/
def redisSet (st : Store) (key : String) (rec : JobRecord) (ex : Nat) : Store :=
  { st with jobs := (key, rec, st.now + ex) :: st.jobs.filter (fun kv => kv.1 ≠ key) }

/-- `GET key`: present only while the TTL has not lapsed. -/
def redisGet (st : Store) (key : String) : Option JobRecord :=
  match st.jobs.find? (fun kv => kv.1 == key) with
  | some (_, rec, exp) => if st.now < exp then some rec else none
  | none => none

/-- Absolute expiry instant currently attached to a key, if any entry exists. -/
def redisExpiry (st : Store) (key : String) : Option Nat :=
  (st.jobs.find? (fun kv => kv.1 == key)).map (fun kv => kv.2.2)

/-- `DEL key`. -/
def redisDelete (st : Store) (key : String) : Store :=
  { st with jobs := st.jobs.filter (fun kv => kv.1 ≠ key) }

/-- Whole-file write to the cache directory (mode "wb": truncates). -/
def fsWrite (st : Store) (name : String) (size : Nat) : Store :=
  { st with cache := (name, size) :: st.cache.filter (fun kv => kv.1 ≠ name) }

/-- `Path.exists()`. -/
def fsExists (st : Store) (name : String) : Bool :=
  (st.cache.find? (fun kv => kv.1 == name)).isSome

/-- `Path.stat().st_size`, when the file exists. -/
def fsSize (st : Store) (name : String) : Option Nat :=
  (st.cache.find? (fun kv => kv.1 == name)).map (fun kv => kv.2)

/-- `Path.unlink()`. -/
def fsUnlink (st : Store) (name : String) : Store :=
  { st with cache := st.cache.filter (fun kv => kv.1 ≠ name) }

/-- HTTP error raised via `HTTPException(status_code, detail)`. -/
structure ApiError where
  status_code : Nat
  detail : String
  deriving DecidableEq, Repr

/-- A `FileResponse(path, media_type, filename)`. -/
structure AudioResponse where
  path : String
  media_type : String
  filename : String
  deriving DecidableEq, Repr

/-- Python's `str.strip()`: drop leading and trailing whitespace characters.
(Modelled over the ASCII whitespace of `Char.isWhitespace`; the services only
ever test the result for emptiness.) -/
def pyStrip (s : String) : String :=
  String.mk (((s.data.dropWhile Char.isWhitespace).reverse.dropWhile Char.isWhitespace).reverse)

/-- Python's `a or b` on an optional string field: `None` and `""` are falsy. -/
def pyOrStr (a : Option String) (b : String) : String :=
  match a with
  | some s => if s = "" then b else s
  | none => b

/-- The request body of `POST /v1/tts/jobs`. -/
structure SynthesisRequest where
  text : String
  voice : Option String
  model_id : Option String
  prefer_phonemes : Option Bool
  reading_profile : Option String
  deriving DecidableEq, Repr

/-- One observable effect of the background executor, in program order. -/
inductive EAction
  | setJob (key : String) (rec : JobRecord) (ex : Nat)
  | callBackend
  | writeFile (path : String) (size : Nat)
  | unlinkFile (path : String)
  | delJob (key : String)
  deriving DecidableEq, Repr

/-- Interpret one effect on the state. -/
def applyAct (st : Store) (a : EAction) : Store :=
  match a with
  | .setJob key rec ex => redisSet st key rec ex
  | .callBackend => st
  | .writeFile path size => fsWrite st path size
  | .unlinkFile path => fsUnlink st path
  | .delJob key => redisDelete st key

/-- Interpret a sequence of effects. -/
def applyActs (st : Store) (l : List EAction) : Store :=
  l.foldl applyAct st

/-- Statuses carried by the job-store writes of an effect sequence. -/
def writeStatuses (l : List EAction) : List Status :=
  l.filterMap (fun a => match a with
    | .setJob _ rec _ => some rec.status
    | _ => none)

/-- TTL values carried by the job-store writes of an effect sequence. -/
def writeExpiries (l : List EAction) : List Nat :=
  l.filterMap (fun a => match a with
    | .setJob _ _ ex => some ex
    | _ => none)

namespace Edge

/-- `JOB_EXPIRY_SECONDS = 3600`. -/
def JOB_EXPIRY_SECONDS : Nat := 3600

/-- `DEFAULT_VOICE` fallback (env default). -/
def DEFAULT_VOICE : String := "en-US-AriaNeural"

/-- `generate_segment_id(job_id, index) = f"{job_id}-seg-{index}"`. -/
def generate_segment_id (job_id : String) (index : Nat) : String :=
  job_id ++ "-seg-" ++ toString index

/-- `get_cache_path(job_id, segment_id) = CACHE_DIR / f"{segment_id}.mp3"`;
note the Python ignores `job_id` when forming the name. -/
def cachePathName (job_id : String) (segment_id : String) : String :=
  segment_id ++ ".mp3"

/-- Redis key `f"edge-tts:job:{job_id}"`. -/
def jobKey (job_id : String) : String := "edge-tts:job:" ++ job_id

/-- `store_job`: `r.set(key, json.dumps(job_data), ex=JOB_EXPIRY_SECONDS)`. -/
def store_job (st : Store) (job_id : String) (rec : JobRecord) : Store :=
  redisSet st (jobKey job_id) rec JOB_EXPIRY_SECONDS

/-- `get_job`: `r.get(key)` with JSON decode. -/
def get_job (st : Store) (job_id : String) : Option JobRecord :=
  redisGet st (jobKey job_id)

/-- One chunk streamed by `communicate.stream()`: either an audio byte chunk
or a WordBoundary event with raw offset/duration. -/
inductive StreamEvent
  | audio (data : List Nat)
  | wordBoundary (text : String) (offset : Nat) (duration : Nat)
  deriving DecidableEq, Repr

/-- Behaviour of one backend run: the stream of chunks it delivered, or an
exception thrown while streaming or writing the file (caught inside
`synthesize_text_with_timing`). -/
inductive SynthOutcome
  | stream (events : List StreamEvent)
  | exn (msg : String)
  deriving DecidableEq, Repr

/-- The `audio_chunks` collected from the stream. -/
def audioChunks (events : List StreamEvent) : List (List Nat) :=
  events.filterMap (fun e => match e with
    | .audio data => some data
    | _ => none)

/-- The `word_timings` collected from the stream's WordBoundary events. -/
def wordTimings (events : List StreamEvent) : List WordTiming :=
  events.filterMap (fun e => match e with
    | .wordBoundary text offset duration => some (text, offset, duration)
    | _ => none)

/-- `synthesize_text_with_timing`: collects audio chunks and timings; writes
the whole file iff at least one audio chunk arrived; returns
`(success, word_timings)` and never lets an exception escape. -/
def synthesize_text_with_timing (outcome : SynthOutcome) (output_path : String)
    (st : Store) : Bool × List WordTiming × Store :=
  match outcome with
  | .exn _ => (false, [], st)
  | .stream events =>
    if audioChunks events ≠ [] then
      (true, wordTimings events,
        fsWrite st output_path (List.sum ((audioChunks events).map List.length)))
    else
      (false, [], st)

/-- The segment dict built on the completed branch of the executor. -/
def completedSegment (job_id : String) (segment_id : String) (file_size : Nat)
    (word_timings : List WordTiming) : Segment :=
  { id := segment_id
    index := 0
    status := .completed
    audio_url := "/v1/tts/jobs/" ++ job_id ++ "/segments/" ++ segment_id ++ "/audio"
    file_size := file_size
    format := "audio/mpeg"
    word_timings := some word_timings }

/-- `process_job_with_new_redis`, normal control path (lines 325–367): re-read
the record, publish `processing`, synthesize (which itself absorbs backend
exceptions), then publish the terminal record.  Store-level exceptions are
modelled separately by `exec_on_exception`. -/
def process_job_with_new_redis (job_id : String) (text : String) (voice : String)
    (outcome : SynthOutcome) (st : Store) : Store :=
  match redisGet st (jobKey job_id) with
  | none => st
  | some job_data0 =>
    let job_data := { job_data0 with status := Status.processing }
    let st1 := redisSet st (jobKey job_id) job_data JOB_EXPIRY_SECONDS
    let segment_id := generate_segment_id job_id 0
    let output_path := cachePathName job_id segment_id
    match synthesize_text_with_timing outcome output_path st1 with
    | (success, word_timings, st2) =>
      if success && fsExists st2 output_path then
        let file_size := (fsSize st2 output_path).getD 0
        redisSet st2 (jobKey job_id)
          { job_data with
            status := Status.completed
            segments := [completedSegment job_id segment_id file_size word_timings] }
          JOB_EXPIRY_SECONDS
      else
        redisSet st2 (jobKey job_id)
          { job_data with status := Status.failed, error := some "Synthesis failed" }
          JOB_EXPIRY_SECONDS

/-- The `except` block of `process_job_with_new_redis` (lines 369–380): on a
store-level exception with message `msg`, re-read the record and, if still
present, publish `failed` with the message captured verbatim. -/
def exec_on_exception (job_id : String) (msg : String) (st : Store) : Store :=
  match redisGet st (jobKey job_id) with
  | none => st
  | some job_data =>
    redisSet st (jobKey job_id)
      { job_data with status := Status.failed, error := some msg }
      JOB_EXPIRY_SECONDS

/-- Effect trace of the normal executor path, as a function of the initial
re-read and the backend outcome. -/
def execTrace (job_id : String) (outcome : SynthOutcome)
    (initial : Option JobRecord) : List EAction :=
  match initial with
  | none => []
  | some job_data0 =>
    let job_data := { job_data0 with status := Status.processing }
    let segment_id := generate_segment_id job_id 0
    let output_path := cachePathName job_id segment_id
    EAction.setJob (jobKey job_id) job_data JOB_EXPIRY_SECONDS ::
    EAction.callBackend ::
    (match outcome with
     | .exn _ =>
        [EAction.setJob (jobKey job_id)
          { job_data with status := Status.failed, error := some "Synthesis failed" }
          JOB_EXPIRY_SECONDS]
     | .stream events =>
        if audioChunks events ≠ [] then
          let total := List.sum ((audioChunks events).map List.length)
          [EAction.writeFile output_path total,
           EAction.setJob (jobKey job_id)
             { job_data with
               status := Status.completed
               segments := [completedSegment job_id segment_id total (wordTimings events)] }
             JOB_EXPIRY_SECONDS]
        else
          [EAction.setJob (jobKey job_id)
            { job_data with status := Status.failed, error := some "Synthesis failed" }
            JOB_EXPIRY_SECONDS])

/-- `POST /v1/tts/jobs` (`create_job`): validate non-empty trimmed text,
resolve the voice through the `or` chain, store the `pending` record.  The
fresh UUID and timestamp are passed in.  Returns the HTTP result and the
store (unchanged on rejection). -/
def create_job (req : SynthesisRequest) (job_id : String) (created_at : String)
    (st : Store) : Except ApiError String × Store :=
  if req.text = "" ∨ pyStrip req.text = "" then
    (Except.error ⟨400, "Text is required"⟩, st)
  else
    let voice := pyOrStr req.voice (pyOrStr req.model_id DEFAULT_VOICE)
    let job_data : JobRecord :=
      { job_id := job_id
        status := .pending
        created_at := created_at
        text_length := req.text.length
        voice := voice
        prefer_phonemes := none
        segments := []
        error := none }
    (Except.ok job_id, store_job st job_id job_data)

/-- `GET /v1/tts/jobs/{job_id}` (`get_job_status`). -/
def get_job_status (job_id : String) (st : Store) : Except ApiError JobRecord :=
  match get_job st job_id with
  | none => Except.error ⟨404, "Job not found"⟩
  | some job_data => Except.ok job_data

/-- `GET /v1/tts/jobs/{job_id}/segments/{segment_id}/audio`
(`get_segment_audio`): job lookup, completed check, segment membership,
file existence, then `FileResponse` — in that textual order. -/
def get_segment_audio (job_id : String) (segment_id : String) (st : Store) :
    Except ApiError AudioResponse :=
  match get_job st job_id with
  | none => Except.error ⟨404, "Job not found"⟩
  | some job_data =>
    if job_data.status ≠ Status.completed then
      Except.error ⟨400, "Job is " ++ job_data.status.str ++ ", not completed"⟩
    else
      match job_data.segments.find? (fun seg => seg.id == segment_id) with
      | none => Except.error ⟨404, "Segment not found"⟩
      | some _segment =>
        let audio_path := cachePathName job_id segment_id
        if fsExists st audio_path then
          Except.ok ⟨audio_path, "audio/mpeg", segment_id ++ ".mp3"⟩
        else
          Except.error ⟨404, "Audio file not found"⟩

/-- Effect trace of `DELETE /v1/tts/jobs/{job_id}` once the record was found:
unlink each segment's existing cache file, then delete the record. -/
def deleteTrace (job_id : String) (job_data : JobRecord) (st : Store) : List EAction :=
  (job_data.segments.filterMap (fun seg =>
    if fsExists st (cachePathName job_id seg.id) then
      some (EAction.unlinkFile (cachePathName job_id seg.id))
    else none)) ++ [EAction.delJob (jobKey job_id)]

/-- `DELETE /v1/tts/jobs/{job_id}` (`delete_job`). -/
def delete_job (job_id : String) (st : Store) : Except ApiError String × Store :=
  match get_job st job_id with
  | none => (Except.error ⟨404, "Job not found"⟩, st)
  | some job_data =>
    (Except.ok "Job deleted successfully", applyActs st (deleteTrace job_id job_data st))

end Edge

namespace Espeak

/-- `JOB_EXPIRY_SECONDS = 3600`. -/
def JOB_EXPIRY_SECONDS : Nat := 3600

/-- `DEFAULT_VOICE` fallback (env default). -/
def DEFAULT_VOICE : String := "en-us"

/-- `generate_segment_id(job_id, index) = f"{job_id}-seg-{index}"`. -/
def generate_segment_id (job_id : String) (index : Nat) : String :=
  job_id ++ "-seg-" ++ toString index

/-- `get_cache_path(job_id, segment_id) = CACHE_DIR / f"{segment_id}.wav"`. -/
def cachePathName (job_id : String) (segment_id : String) : String :=
  segment_id ++ ".wav"

/-- Redis key `f"espeak-tts:job:{job_id}"`. -/
def jobKey (job_id : String) : String := "espeak-tts:job:" ++ job_id

/-- `store_job`. -/
def store_job (st : Store) (job_id : String) (rec : JobRecord) : Store :=
  redisSet st (jobKey job_id) rec JOB_EXPIRY_SECONDS

/-- `get_job`. -/
def get_job (st : Store) (job_id : String) : Option JobRecord :=
  redisGet st (jobKey job_id)

/-- Behaviour of one `espeak-ng` subprocess run: return code 0 having written
a wav file of the given size, a nonzero return code, a timeout, or another
exception — all three failure shapes are caught inside `synthesize_text`. -/
inductive SynthOutcome
  | ranOk (size : Nat)
  | ranFail (stderr : String)
  | timeout
  | exn (msg : String)
  deriving DecidableEq, Repr

/-- `synthesize_text`: run the subprocess; on return code 0 the result is
`output_path.exists() and output_path.stat().st_size > 0`; every failure
shape returns `False` without raising. -/
def synthesize_text (outcome : SynthOutcome) (output_path : String) (st : Store) :
    Bool × Store :=
  match outcome with
  | .ranOk size =>
    let st1 := fsWrite st output_path size
    (fsExists st1 output_path && decide (0 < (fsSize st1 output_path).getD 0), st1)
  | .ranFail _ => (false, st)
  | .timeout => (false, st)
  | .exn _ => (false, st)

/-- The segment dict built on the completed branch (no `word_timings` key). -/
def completedSegment (job_id : String) (segment_id : String) (file_size : Nat) : Segment :=
  { id := segment_id
    index := 0
    status := .completed
    audio_url := "/v1/tts/jobs/" ++ job_id ++ "/segments/" ++ segment_id ++ "/audio"
    file_size := file_size
    format := "audio/wav"
    word_timings := none }

/-- `process_job_with_new_redis`, normal control path (lines 251–295). -/
def process_job_with_new_redis (job_id : String) (text : String) (voice : String)
    (prefer_phonemes : Bool) (outcome : SynthOutcome) (st : Store) : Store :=
  match redisGet st (jobKey job_id) with
  | none => st
  | some job_data0 =>
    let job_data := { job_data0 with status := Status.processing }
    let st1 := redisSet st (jobKey job_id) job_data JOB_EXPIRY_SECONDS
    let segment_id := generate_segment_id job_id 0
    let output_path := cachePathName job_id segment_id
    match synthesize_text outcome output_path st1 with
    | (success, st2) =>
      if success && fsExists st2 output_path then
        let file_size := (fsSize st2 output_path).getD 0
        redisSet st2 (jobKey job_id)
          { job_data with
            status := Status.completed
            segments := [completedSegment job_id segment_id file_size] }
          JOB_EXPIRY_SECONDS
      else
        redisSet st2 (jobKey job_id)
          { job_data with status := Status.failed, error := some "Synthesis failed" }
          JOB_EXPIRY_SECONDS

/-- The `except` block of `process_job_with_new_redis` (lines 297–308). -/
def exec_on_exception (job_id : String) (msg : String) (st : Store) : Store :=
  match redisGet st (jobKey job_id) with
  | none => st
  | some job_data =>
    redisSet st (jobKey job_id)
      { job_data with status := Status.failed, error := some msg }
      JOB_EXPIRY_SECONDS

/-- Effect trace of the normal executor path. -/
def execTrace (job_id : String) (outcome : SynthOutcome)
    (initial : Option JobRecord) : List EAction :=
  match initial with
  | none => []
  | some job_data0 =>
    let job_data := { job_data0 with status := Status.processing }
    let segment_id := generate_segment_id job_id 0
    let output_path := cachePathName job_id segment_id
    EAction.setJob (jobKey job_id) job_data JOB_EXPIRY_SECONDS ::
    EAction.callBackend ::
    (match outcome with
     | .ranOk size =>
        if 0 < size then
          [EAction.writeFile output_path size,
           EAction.setJob (jobKey job_id)
             { job_data with
               status := Status.completed
               segments := [completedSegment job_id segment_id size] }
             JOB_EXPIRY_SECONDS]
        else
          [EAction.writeFile output_path size,
           EAction.setJob (jobKey job_id)
             { job_data with status := Status.failed, error := some "Synthesis failed" }
             JOB_EXPIRY_SECONDS]
     | _ =>
        [EAction.setJob (jobKey job_id)
          { job_data with status := Status.failed, error := some "Synthesis failed" }
          JOB_EXPIRY_SECONDS])

/-- `POST /v1/tts/jobs` (`create_job`); the record carries `prefer_phonemes`. -/
def create_job (req : SynthesisRequest) (job_id : String) (created_at : String)
    (st : Store) : Except ApiError String × Store :=
  if req.text = "" ∨ pyStrip req.text = "" then
    (Except.error ⟨400, "Text is required"⟩, st)
  else
    let voice := pyOrStr req.voice (pyOrStr req.model_id DEFAULT_VOICE)
    let job_data : JobRecord :=
      { job_id := job_id
        status := .pending
        created_at := created_at
        text_length := req.text.length
        voice := voice
        prefer_phonemes := some (req.prefer_phonemes.getD false)
        segments := []
        error := none }
    (Except.ok job_id, store_job st job_id job_data)

/-- `GET /v1/tts/jobs/{job_id}` (`get_job_status`). -/
def get_job_status (job_id : String) (st : Store) : Except ApiError JobRecord :=
  match get_job st job_id with
  | none => Except.error ⟨404, "Job not found"⟩
  | some job_data => Except.ok job_data

/-- `GET /v1/tts/jobs/{job_id}/segments/{segment_id}/audio`
(`get_segment_audio`). -/
def get_segment_audio (job_id : String) (segment_id : String) (st : Store) :
    Except ApiError AudioResponse :=
  match get_job st job_id with
  | none => Except.error ⟨404, "Job not found"⟩
  | some job_data =>
    if job_data.status ≠ Status.completed then
      Except.error ⟨400, "Job is " ++ job_data.status.str ++ ", not completed"⟩
    else
      match job_data.segments.find? (fun seg => seg.id == segment_id) with
      | none => Except.error ⟨404, "Segment not found"⟩
      | some _segment =>
        let audio_path := cachePathName job_id segment_id
        if fsExists st audio_path then
          Except.ok ⟨audio_path, "audio/wav", segment_id ++ ".wav"⟩
        else
          Except.error ⟨404, "Audio file not found"⟩

/-- Effect trace of `DELETE /v1/tts/jobs/{job_id}` once the record was found. -/
def deleteTrace (job_id : String) (job_data : JobRecord) (st : Store) : List EAction :=
  (job_data.segments.filterMap (fun seg =>
    if fsExists st (cachePathName job_id seg.id) then
      some (EAction.unlinkFile (cachePathName job_id seg.id))
    else none)) ++ [EAction.delJob (jobKey job_id)]

/-- `DELETE /v1/tts/jobs/{job_id}` (`delete_job`). -/
def delete_job (job_id : String) (st : Store) : Except ApiError String × Store :=
  match get_job st job_id with
  | none => (Except.error ⟨404, "Job not found"⟩, st)
  | some job_data =>
    (Except.ok "Job deleted successfully", applyActs st (deleteTrace job_id job_data st))

end Espeak

/-! ### Concrete fixtures used by the witness theorems -/

namespace Fx

/-- A completed edge segment for job `j1`. -/
def segE : Segment := ⟨"j1-seg-0", 0, .completed, "u", 5, "audio/mpeg", some []⟩

/-- A completed edge record for job `j1`. -/
def jdCE : JobRecord := ⟨"j1", .completed, "t", 2, "v", none, [segE], none⟩

/-- A processing edge record for job `j1`. -/
def jdPE : JobRecord := ⟨"j1", .processing, "t", 2, "v", none, [], none⟩

/-- A pending edge record for job `j1`. -/
def jdPendE : JobRecord := ⟨"j1", .pending, "t", 2, "v", none, [], none⟩

/-- The empty store at time 0. -/
def stEmpty : Store := ⟨[], [], 0⟩

/-- Store holding the processing edge record. -/
def stPE : Store := ⟨[("edge-tts:job:j1", jdPE, 10)], [], 0⟩

/-- Store holding the completed edge record with an empty cache. -/
def stCE0 : Store := ⟨[("edge-tts:job:j1", jdCE, 10)], [], 0⟩

/-- Store holding the completed edge record and its cache file. -/
def stCE1 : Store := ⟨[("edge-tts:job:j1", jdCE, 10)], [("j1-seg-0.mp3", 5)], 0⟩

/-- Store holding the pending edge record. -/
def stPendE : Store := ⟨[("edge-tts:job:j1", jdPendE, 10)], [], 0⟩

/-- A completed espeak segment for job `j1`. -/
def segS : Segment := ⟨"j1-seg-0", 0, .completed, "u", 5, "audio/wav", none⟩

/-- A completed espeak record for job `j1`. -/
def jdCS : JobRecord := ⟨"j1", .completed, "t", 2, "v", some false, [segS], none⟩

/-- A processing espeak record for job `j1`. -/
def jdPS : JobRecord := ⟨"j1", .processing, "t", 2, "v", some false, [], none⟩

/-- A pending espeak record for job `j1`. -/
def jdPendS : JobRecord := ⟨"j1", .pending, "t", 2, "v", some false, [], none⟩

/-- Store holding the processing espeak record. -/
def stPS : Store := ⟨[("espeak-tts:job:j1", jdPS, 10)], [], 0⟩

/-- Store holding the completed espeak record with an empty cache. -/
def stCS0 : Store := ⟨[("espeak-tts:job:j1", jdCS, 10)], [], 0⟩

/-- Store holding the completed espeak record and its cache file. -/
def stCS1 : Store := ⟨[("espeak-tts:job:j1", jdCS, 10)], [("j1-seg-0.wav", 5)], 0⟩

/-- Store holding the pending espeak record. -/
def stPendS : Store := ⟨[("espeak-tts:job:j1", jdPendS, 10)], [], 0⟩

/-- Store whose edge record's TTL (expiry 10) has lapsed at time 50. -/
def stExpE : Store := ⟨[("edge-tts:job:j1", jdPendE, 10)], [], 50⟩

/-- Store whose espeak record's TTL (expiry 10) has lapsed at time 50. -/
def stExpS : Store := ⟨[("espeak-tts:job:j1", jdPendS, 10)], [], 50⟩

end Fx

/-! ### Basic store lemmas -/

@[simp]
theorem redisSet_now (st : Store) (k : String) (r : JobRecord) (e : Nat) :
    (redisSet st k r e).now = st.now := rfl

@[simp]
theorem redisSet_cache (st : Store) (k : String) (r : JobRecord) (e : Nat) :
    (redisSet st k r e).cache = st.cache := rfl

@[simp]
theorem fsWrite_jobs (st : Store) (p : String) (n : Nat) :
    (fsWrite st p n).jobs = st.jobs := rfl

@[simp]
theorem fsWrite_now (st : Store) (p : String) (n : Nat) :
    (fsWrite st p n).now = st.now := rfl

@[simp]
theorem fsUnlink_jobs (st : Store) (p : String) :
    (fsUnlink st p).jobs = st.jobs := rfl

@[simp]
theorem fsUnlink_now (st : Store) (p : String) :
    (fsUnlink st p).now = st.now := rfl

@[simp]
theorem redisDelete_cache (st : Store) (k : String) :
    (redisDelete st k).cache = st.cache := rfl

@[simp]
theorem redisDelete_now (st : Store) (k : String) :
    (redisDelete st k).now = st.now := rfl

/-- A `GET` right after a `SET` with a positive TTL returns the record set. -/
theorem redisGet_set_self (st : Store) (k : String) (r : JobRecord) (e : Nat)
    (h : 0 < e) : redisGet (redisSet st k r e) k = some r := by
  unfold redisGet redisSet
  rw [List.find?_cons_of_pos _ (by simp)]
  simp [Nat.lt_add_of_pos_right h]

/-- The expiry attached by a `SET` is `now + e`. -/
theorem redisExpiry_set_self (st : Store) (k : String) (r : JobRecord) (e : Nat) :
    redisExpiry (redisSet st k r e) k = some (st.now + e) := by
  unfold redisExpiry redisSet
  rw [List.find?_cons_of_pos _ (by simp)]
  rfl

/-- A `GET` right after a `DEL` of the same key finds nothing. -/
theorem redisGet_delete_self (st : Store) (k : String) :
    redisGet (redisDelete st k) k = none := by
  unfold redisGet redisDelete
  have hf : (st.jobs.filter (fun kv => kv.1 ≠ k)).find? (fun kv => kv.1 == k) = none := by
    rw [List.find?_eq_none]
    intro x hx
    have hmem := (List.mem_filter.mp hx).2
    simp only [decide_not, Bool.not_eq_true', decide_eq_false_iff_not] at hmem
    simp [hmem]
  rw [hf]

/-- Reading the job store is unaffected by cache-file writes. -/
theorem redisGet_fsWrite (st : Store) (p : String) (n : Nat) (k : String) :
    redisGet (fsWrite st p n) k = redisGet st k := rfl

/-- Reading the job store is unaffected by cache-file unlinks. -/
theorem redisGet_fsUnlink (st : Store) (p : String) (k : String) :
    redisGet (fsUnlink st p) k = redisGet st k := rfl

/-- A cache file just written exists. -/
theorem fsExists_fsWrite_self (st : Store) (p : String) (n : Nat) :
    fsExists (fsWrite st p n) p = true := by
  unfold fsExists fsWrite
  rw [List.find?_cons_of_pos _ (by simp)]
  rfl

/-- A cache file just written has the size written. -/
theorem fsSize_fsWrite_self (st : Store) (p : String) (n : Nat) :
    fsSize (fsWrite st p n) p = some n := by
  unfold fsSize fsWrite
  rw [List.find?_cons_of_pos _ (by simp)]
  rfl

/-- Cache lookups are unaffected by job-store writes. -/
theorem fsExists_redisSet (st : Store) (k : String) (r : JobRecord) (e : Nat)
    (p : String) : fsExists (redisSet st k r e) p = fsExists st p := rfl

/-- Cache sizes are unaffected by job-store writes. -/
theorem fsSize_redisSet (st : Store) (k : String) (r : JobRecord) (e : Nat)
    (p : String) : fsSize (redisSet st k r e) p = fsSize st p := rfl

/-- `redisGet` only looks at the job list and the clock. -/
theorem redisGet_congr (st st' : Store) (k : String) (hj : st.jobs = st'.jobs)
    (hn : st.now = st'.now) : redisGet st k = redisGet st' k := by
  unfold redisGet
  rw [hj, hn]

/-- Applying a list of unlink effects leaves the job list untouched. -/
theorem applyActs_unlinks_jobs (st : Store) (l : List EAction)
    (h : ∀ a ∈ l, ∃ p, a = EAction.unlinkFile p) :
    (applyActs st l).jobs = st.jobs ∧ (applyActs st l).now = st.now := by
  induction l generalizing st with
  | nil => exact ⟨rfl, rfl⟩
  | cons a l ih =>
    obtain ⟨p, rfl⟩ := h a (List.mem_cons_self a l)
    have := ih (fsUnlink st p) (fun b hb => h b (List.mem_cons_of_mem _ hb))
    simpa [applyActs, applyAct] using this

/-- Helper: appending a trailing effect to an effect sequence. -/
theorem applyActs_append (st : Store) (l₁ l₂ : List EAction) :
    applyActs st (l₁ ++ l₂) = applyActs (applyActs st l₁) l₂ := by
  unfold applyActs
  exact List.foldl_append applyAct st l₁ l₂

@[simp]
theorem applyActs_nil (st : Store) : applyActs st [] = st := rfl

@[simp]
theorem applyActs_cons (st : Store) (a : EAction) (l : List EAction) :
    applyActs st (a :: l) = applyActs (applyAct st a) l := rfl

/-- `GET` after a `SET` with the edge service's TTL window. -/
theorem edge_redisGet_set_expiry (st : Store) (k : String) (r : JobRecord) :
    redisGet (redisSet st k r Edge.JOB_EXPIRY_SECONDS) k = some r :=
  redisGet_set_self _ _ _ _ (by decide)

/-- `GET` after a `SET` with the espeak service's TTL window. -/
theorem espeak_redisGet_set_expiry (st : Store) (k : String) (r : JobRecord) :
    redisGet (redisSet st k r Espeak.JOB_EXPIRY_SECONDS) k = some r :=
  redisGet_set_self _ _ _ _ (by decide)

/-- String equality from character-data equality. -/
theorem string_ext (a b : String) (h : a.data = b.data) : a = b := by
  cases a; cases b; exact congrArg String.mk h

/-- Right-cancellation of string append. -/
theorem string_append_cancel_right (a b t : String) (h : a ++ t = b ++ t) : a = b := by
  have hd : a.data ++ t.data = b.data ++ t.data := by
    have := congrArg String.data h
    simpa [String.data_append] using this
  exact string_ext a b (List.append_cancel_right hd)

/-! ### The executor's state change is exactly the interpretation of its
effect trace -/

/-- The edge executor's normal path equals the interpretation of its trace. -/
theorem edge_process_eq_trace (job_id text voice : String) (outcome : Edge.SynthOutcome)
    (st : Store) :
    Edge.process_job_with_new_redis job_id text voice outcome st =
      applyActs st (Edge.execTrace job_id outcome (redisGet st (Edge.jobKey job_id))) := by
  unfold Edge.process_job_with_new_redis Edge.execTrace
  cases h : redisGet st (Edge.jobKey job_id) with
  | none => simp [applyActs]
  | some jd =>
    cases outcome with
    | exn m =>
      simp [Edge.synthesize_text_with_timing, applyActs, applyAct]
    | stream events =>
      by_cases hc : Edge.audioChunks events = []
      · simp [Edge.synthesize_text_with_timing, hc, applyActs, applyAct]
      · simp [Edge.synthesize_text_with_timing, hc, applyActs, applyAct,
              fsExists_fsWrite_self, fsSize_fsWrite_self]

/-- The espeak executor's normal path equals the interpretation of its trace. -/
theorem espeak_process_eq_trace (job_id text voice : String) (prefer_phonemes : Bool)
    (outcome : Espeak.SynthOutcome) (st : Store) :
    Espeak.process_job_with_new_redis job_id text voice prefer_phonemes outcome st =
      applyActs st (Espeak.execTrace job_id outcome (redisGet st (Espeak.jobKey job_id))) := by
  unfold Espeak.process_job_with_new_redis Espeak.execTrace
  cases h : redisGet st (Espeak.jobKey job_id) with
  | none => simp [applyActs]
  | some jd =>
    cases outcome with
    | ranOk size =>
      by_cases hs : 0 < size
      · simp [Espeak.synthesize_text, applyActs, applyAct, hs,
              fsExists_fsWrite_self, fsSize_fsWrite_self]
      · simp [Espeak.synthesize_text, applyActs, applyAct, hs,
              fsExists_fsWrite_self, fsSize_fsWrite_self]
    | ranFail e =>
      simp [Espeak.synthesize_text, applyActs, applyAct]
    | timeout =>
      simp [Espeak.synthesize_text, applyActs, applyAct]
    | exn m =>
      simp [Espeak.synthesize_text, applyActs, applyAct]

/-- Stripping the empty string gives the empty string. -/
theorem pyStrip_empty : pyStrip "" = "" := rfl

/-! ### Claim theorems -/

/-- C3: in both services, a request whose text is empty or whitespace-only is
rejected by `create_job` with HTTP 400 and the job store is left untouched
(no record is created); a request with non-empty stripped text stores a
`pending` job record (voice resolved through the `or`-chain) and returns the
job id. -/
theorem C3_create_validation :
    (∀ (req : SynthesisRequest) (job_id created_at : String) (st : Store),
        pyStrip req.text = "" →
        Edge.create_job req job_id created_at st =
          (Except.error ⟨400, "Text is required"⟩, st)) ∧
    (∀ (req : SynthesisRequest) (job_id created_at : String) (st : Store),
        pyStrip req.text ≠ "" →
        (Edge.create_job req job_id created_at st).1 = Except.ok job_id ∧
        Edge.get_job (Edge.create_job req job_id created_at st).2 job_id =
          some { job_id := job_id, status := Status.pending, created_at := created_at,
                 text_length := req.text.length,
                 voice := pyOrStr req.voice (pyOrStr req.model_id Edge.DEFAULT_VOICE),
                 prefer_phonemes := none, segments := [], error := none }) ∧
    (∀ (req : SynthesisRequest) (job_id created_at : String) (st : Store),
        pyStrip req.text = "" →
        Espeak.create_job req job_id created_at st =
          (Except.error ⟨400, "Text is required"⟩, st)) ∧
    (∀ (req : SynthesisRequest) (job_id created_at : String) (st : Store),
        pyStrip req.text ≠ "" →
        (Espeak.create_job req job_id created_at st).1 = Except.ok job_id ∧
        Espeak.get_job (Espeak.create_job req job_id created_at st).2 job_id =
          some { job_id := job_id, status := Status.pending, created_at := created_at,
                 text_length := req.text.length,
                 voice := pyOrStr req.voice (pyOrStr req.model_id Espeak.DEFAULT_VOICE),
                 prefer_phonemes := some (req.prefer_phonemes.getD false),
                 segments := [], error := none }) := by
  refine ⟨?_, ?_, ?_, ?_⟩
  · intro req job_id created_at st h
    unfold Edge.create_job
    rw [if_pos (Or.inr h)]
  · intro req job_id created_at st h
    have ht : req.text ≠ "" := fun he => h (by rw [he]; rfl)
    unfold Edge.create_job
    rw [if_neg (by simp [ht, h])]
    exact ⟨rfl, redisGet_set_self _ _ _ _ (by decide)⟩
  · intro req job_id created_at st h
    unfold Espeak.create_job
    rw [if_pos (Or.inr h)]
  · intro req job_id created_at st h
    have ht : req.text ≠ "" := fun he => h (by rw [he]; rfl)
    unfold Espeak.create_job
    rw [if_neg (by simp [ht, h])]
    exact ⟨rfl, redisGet_set_self _ _ _ _ (by decide)⟩

/-- Witness for C3 at concrete inputs: the whitespace-only request `"   "` is
rejected on both services with the store unchanged, and the request
`"Hello world"` creates a pending record on both services. -/
theorem C3_create_validation_witness :
    (Edge.create_job ⟨"   ", none, none, none, none⟩ "j1" "t1" ⟨[], [], 0⟩ =
      (Except.error ⟨400, "Text is required"⟩, ⟨[], [], 0⟩)) ∧
    ((Edge.create_job ⟨"Hello world", none, none, none, none⟩ "j1" "t1" ⟨[], [], 0⟩).1 =
        Except.ok "j1" ∧
      Edge.get_job (Edge.create_job ⟨"Hello world", none, none, none, none⟩ "j1" "t1"
          ⟨[], [], 0⟩).2 "j1" =
        some { job_id := "j1", status := Status.pending, created_at := "t1",
               text_length := ("Hello world" : String).length,
               voice := pyOrStr none (pyOrStr none Edge.DEFAULT_VOICE),
               prefer_phonemes := none, segments := [], error := none }) ∧
    (Espeak.create_job ⟨"   ", none, none, none, none⟩ "j1" "t1" ⟨[], [], 0⟩ =
      (Except.error ⟨400, "Text is required"⟩, ⟨[], [], 0⟩)) ∧
    ((Espeak.create_job ⟨"Hello world", none, none, none, none⟩ "j1" "t1" ⟨[], [], 0⟩).1 =
        Except.ok "j1" ∧
      Espeak.get_job (Espeak.create_job ⟨"Hello world", none, none, none, none⟩ "j1" "t1"
          ⟨[], [], 0⟩).2 "j1" =
        some { job_id := "j1", status := Status.pending, created_at := "t1",
               text_length := ("Hello world" : String).length,
               voice := pyOrStr none (pyOrStr none Espeak.DEFAULT_VOICE),
               prefer_phonemes := some false, segments := [], error := none }) :=
  ⟨C3_create_validation.1 ⟨"   ", none, none, none, none⟩ "j1" "t1" ⟨[], [], 0⟩ (by decide),
   C3_create_validation.2.1 ⟨"Hello world", none, none, none, none⟩ "j1" "t1" ⟨[], [], 0⟩
     (by decide),
   C3_create_validation.2.2.1 ⟨"   ", none, none, none, none⟩ "j1" "t1" ⟨[], [], 0⟩ (by decide),
   C3_create_validation.2.2.2 ⟨"Hello world", none, none, none, none⟩ "j1" "t1" ⟨[], [], 0⟩
     (by decide)⟩

/-- C5: in both services, `get_segment_audio` applies its checks in order:
job absent → 404 "Job not found" (regardless of anything else); job present
but not `completed` → 400 with the current status; segment id not in the
record's list → 404 "Segment not found"; cache file missing → 404
"Audio file not found"; otherwise the file response with the backend media
type, which coincides with the `format` the executor declares on every
segment it creates. -/
theorem C5_get_segment_audio_order :
    (∀ (job_id segment_id : String) (st : Store),
        Edge.get_job st job_id = none →
        Edge.get_segment_audio job_id segment_id st =
          Except.error ⟨404, "Job not found"⟩) ∧
    (∀ (job_id segment_id : String) (st : Store) (jd : JobRecord),
        Edge.get_job st job_id = some jd → jd.status ≠ Status.completed →
        Edge.get_segment_audio job_id segment_id st =
          Except.error ⟨400, "Job is " ++ jd.status.str ++ ", not completed"⟩) ∧
    (∀ (job_id segment_id : String) (st : Store) (jd : JobRecord),
        Edge.get_job st job_id = some jd → jd.status = Status.completed →
        jd.segments.find? (fun seg => seg.id == segment_id) = none →
        Edge.get_segment_audio job_id segment_id st =
          Except.error ⟨404, "Segment not found"⟩) ∧
    (∀ (job_id segment_id : String) (st : Store) (jd : JobRecord) (seg : Segment),
        Edge.get_job st job_id = some jd → jd.status = Status.completed →
        jd.segments.find? (fun s => s.id == segment_id) = some seg →
        fsExists st (Edge.cachePathName job_id segment_id) = false →
        Edge.get_segment_audio job_id segment_id st =
          Except.error ⟨404, "Audio file not found"⟩) ∧
    (∀ (job_id segment_id : String) (st : Store) (jd : JobRecord) (seg : Segment),
        Edge.get_job st job_id = some jd → jd.status = Status.completed →
        jd.segments.find? (fun s => s.id == segment_id) = some seg →
        fsExists st (Edge.cachePathName job_id segment_id) = true →
        Edge.get_segment_audio job_id segment_id st =
          Except.ok ⟨Edge.cachePathName job_id segment_id, "audio/mpeg",
            segment_id ++ ".mp3"⟩) ∧
    (∀ (job_id segment_id : String) (size : Nat) (tw : List WordTiming),
        (Edge.completedSegment job_id segment_id size tw).format = "audio/mpeg") ∧
    (∀ (job_id segment_id : String) (st : Store),
        Espeak.get_job st job_id = none →
        Espeak.get_segment_audio job_id segment_id st =
          Except.error ⟨404, "Job not found"⟩) ∧
    (∀ (job_id segment_id : String) (st : Store) (jd : JobRecord),
        Espeak.get_job st job_id = some jd → jd.status ≠ Status.completed →
        Espeak.get_segment_audio job_id segment_id st =
          Except.error ⟨400, "Job is " ++ jd.status.str ++ ", not completed"⟩) ∧
    (∀ (job_id segment_id : String) (st : Store) (jd : JobRecord),
        Espeak.get_job st job_id = some jd → jd.status = Status.completed →
        jd.segments.find? (fun seg => seg.id == segment_id) = none →
        Espeak.get_segment_audio job_id segment_id st =
          Except.error ⟨404, "Segment not found"⟩) ∧
    (∀ (job_id segment_id : String) (st : Store) (jd : JobRecord) (seg : Segment),
        Espeak.get_job st job_id = some jd → jd.status = Status.completed →
        jd.segments.find? (fun s => s.id == segment_id) = some seg →
        fsExists st (Espeak.cachePathName job_id segment_id) = false →
        Espeak.get_segment_audio job_id segment_id st =
          Except.error ⟨404, "Audio file not found"⟩) ∧
    (∀ (job_id segment_id : String) (st : Store) (jd : JobRecord) (seg : Segment),
        Espeak.get_job st job_id = some jd → jd.status = Status.completed →
        jd.segments.find? (fun s => s.id == segment_id) = some seg →
        fsExists st (Espeak.cachePathName job_id segment_id) = true →
        Espeak.get_segment_audio job_id segment_id st =
          Except.ok ⟨Espeak.cachePathName job_id segment_id, "audio/wav",
            segment_id ++ ".wav"⟩) ∧
    (∀ (job_id segment_id : String) (size : Nat),
        (Espeak.completedSegment job_id segment_id size).format = "audio/wav") := by
  refine ⟨?_, ?_, ?_, ?_, ?_, ?_, ?_, ?_, ?_, ?_, ?_, ?_⟩
  · intro job_id segment_id st h
    simp [Edge.get_segment_audio, h]
  · intro job_id segment_id st jd h1 h2
    simp [Edge.get_segment_audio, h1, h2]
  · intro job_id segment_id st jd h1 h2 h3
    simp [Edge.get_segment_audio, h1, h2, h3]
  · intro job_id segment_id st jd seg h1 h2 h3 h4
    simp [Edge.get_segment_audio, h1, h2, h3, h4]
  · intro job_id segment_id st jd seg h1 h2 h3 h4
    simp [Edge.get_segment_audio, h1, h2, h3, h4]
  · intro job_id segment_id size tw
    rfl
  · intro job_id segment_id st h
    simp [Espeak.get_segment_audio, h]
  · intro job_id segment_id st jd h1 h2
    simp [Espeak.get_segment_audio, h1, h2]
  · intro job_id segment_id st jd h1 h2 h3
    simp [Espeak.get_segment_audio, h1, h2, h3]
  · intro job_id segment_id st jd seg h1 h2 h3 h4
    simp [Espeak.get_segment_audio, h1, h2, h3, h4]
  · intro job_id segment_id st jd seg h1 h2 h3 h4
    simp [Espeak.get_segment_audio, h1, h2, h3, h4]
  · intro job_id segment_id size
    rfl

/-- Witness for C5 at concrete inputs: each branch of the check order is
exercised on both services. -/
theorem C5_get_segment_audio_order_witness :
    (Edge.get_segment_audio "j1" "j1-seg-0" Fx.stEmpty =
      Except.error ⟨404, "Job not found"⟩) ∧
    (Edge.get_segment_audio "j1" "j1-seg-0" Fx.stPE =
      Except.error ⟨400, "Job is " ++ Fx.jdPE.status.str ++ ", not completed"⟩) ∧
    (Edge.get_segment_audio "j1" "zz" Fx.stCE0 =
      Except.error ⟨404, "Segment not found"⟩) ∧
    (Edge.get_segment_audio "j1" "j1-seg-0" Fx.stCE0 =
      Except.error ⟨404, "Audio file not found"⟩) ∧
    (Edge.get_segment_audio "j1" "j1-seg-0" Fx.stCE1 =
      Except.ok ⟨Edge.cachePathName "j1" "j1-seg-0", "audio/mpeg", "j1-seg-0" ++ ".mp3"⟩) ∧
    ((Edge.completedSegment "j1" "j1-seg-0" 5 []).format = "audio/mpeg") ∧
    (Espeak.get_segment_audio "j1" "j1-seg-0" Fx.stEmpty =
      Except.error ⟨404, "Job not found"⟩) ∧
    (Espeak.get_segment_audio "j1" "j1-seg-0" Fx.stPS =
      Except.error ⟨400, "Job is " ++ Fx.jdPS.status.str ++ ", not completed"⟩) ∧
    (Espeak.get_segment_audio "j1" "zz" Fx.stCS0 =
      Except.error ⟨404, "Segment not found"⟩) ∧
    (Espeak.get_segment_audio "j1" "j1-seg-0" Fx.stCS0 =
      Except.error ⟨404, "Audio file not found"⟩) ∧
    (Espeak.get_segment_audio "j1" "j1-seg-0" Fx.stCS1 =
      Except.ok ⟨Espeak.cachePathName "j1" "j1-seg-0", "audio/wav", "j1-seg-0" ++ ".wav"⟩) ∧
    ((Espeak.completedSegment "j1" "j1-seg-0" 5).format = "audio/wav") :=
  ⟨C5_get_segment_audio_order.1 "j1" "j1-seg-0" Fx.stEmpty (by decide),
   C5_get_segment_audio_order.2.1 "j1" "j1-seg-0" Fx.stPE Fx.jdPE (by decide) (by decide),
   C5_get_segment_audio_order.2.2.1 "j1" "zz" Fx.stCE0 Fx.jdCE (by decide) (by decide)
     (by decide),
   C5_get_segment_audio_order.2.2.2.1 "j1" "j1-seg-0" Fx.stCE0 Fx.jdCE Fx.segE (by decide)
     (by decide) (by decide) (by decide),
   C5_get_segment_audio_order.2.2.2.2.1 "j1" "j1-seg-0" Fx.stCE1 Fx.jdCE Fx.segE (by decide)
     (by decide) (by decide) (by decide),
   C5_get_segment_audio_order.2.2.2.2.2.1 "j1" "j1-seg-0" 5 [],
   C5_get_segment_audio_order.2.2.2.2.2.2.1 "j1" "j1-seg-0" Fx.stEmpty (by decide),
   C5_get_segment_audio_order.2.2.2.2.2.2.2.1 "j1" "j1-seg-0" Fx.stPS Fx.jdPS (by decide)
     (by decide),
   C5_get_segment_audio_order.2.2.2.2.2.2.2.2.1 "j1" "zz" Fx.stCS0 Fx.jdCS (by decide)
     (by decide) (by decide),
   C5_get_segment_audio_order.2.2.2.2.2.2.2.2.2.1 "j1" "j1-seg-0" Fx.stCS0 Fx.jdCS Fx.segS
     (by decide) (by decide) (by decide) (by decide),
   C5_get_segment_audio_order.2.2.2.2.2.2.2.2.2.2.1 "j1" "j1-seg-0" Fx.stCS1 Fx.jdCS Fx.segS
     (by decide) (by decide) (by decide) (by decide),
   C5_get_segment_audio_order.2.2.2.2.2.2.2.2.2.2.2 "j1" "j1-seg-0" 5⟩

/-- C6: in both services, deleting an absent job fails with 404 and changes
nothing (so deleting a never-created job never succeeds); deleting a present
job always succeeds (a missing cache file is not an error), its effect trace
consists of cache-file unlinks followed by the record deletion as the final
effect, afterwards the record is gone, and a second delete fails with 404. -/
theorem C6_delete_semantics :
    (∀ (job_id : String) (st : Store),
        Edge.get_job st job_id = none →
        Edge.delete_job job_id st = (Except.error ⟨404, "Job not found"⟩, st)) ∧
    (∀ (job_id : String) (st : Store) (jd : JobRecord),
        Edge.get_job st job_id = some jd →
        (Edge.delete_job job_id st).1 = Except.ok "Job deleted successfully" ∧
        Edge.get_job (Edge.delete_job job_id st).2 job_id = none ∧
        (Edge.delete_job job_id (Edge.delete_job job_id st).2).1 =
          Except.error ⟨404, "Job not found"⟩) ∧
    (∀ (job_id : String) (st : Store) (jd : JobRecord),
        Edge.get_job st job_id = some jd →
        ∃ us, Edge.deleteTrace job_id jd st = us ++ [EAction.delJob (Edge.jobKey job_id)] ∧
          ∀ a ∈ us, ∃ p, a = EAction.unlinkFile p) ∧
    (∀ (job_id : String) (st : Store),
        Espeak.get_job st job_id = none →
        Espeak.delete_job job_id st = (Except.error ⟨404, "Job not found"⟩, st)) ∧
    (∀ (job_id : String) (st : Store) (jd : JobRecord),
        Espeak.get_job st job_id = some jd →
        (Espeak.delete_job job_id st).1 = Except.ok "Job deleted successfully" ∧
        Espeak.get_job (Espeak.delete_job job_id st).2 job_id = none ∧
        (Espeak.delete_job job_id (Espeak.delete_job job_id st).2).1 =
          Except.error ⟨404, "Job not found"⟩) ∧
    (∀ (job_id : String) (st : Store) (jd : JobRecord),
        Espeak.get_job st job_id = some jd →
        ∃ us, Espeak.deleteTrace job_id jd st = us ++ [EAction.delJob (Espeak.jobKey job_id)] ∧
          ∀ a ∈ us, ∃ p, a = EAction.unlinkFile p) := by
  have del404_edge : ∀ (job_id : String) (st : Store),
      Edge.get_job st job_id = none →
      Edge.delete_job job_id st = (Except.error ⟨404, "Job not found"⟩, st) := by
    intro job_id st h
    unfold Edge.delete_job
    rw [h]
  have del404_espeak : ∀ (job_id : String) (st : Store),
      Espeak.get_job st job_id = none →
      Espeak.delete_job job_id st = (Except.error ⟨404, "Job not found"⟩, st) := by
    intro job_id st h
    unfold Espeak.delete_job
    rw [h]
  have gone_edge : ∀ (job_id : String) (st : Store) (jd : JobRecord),
      Edge.get_job st job_id = some jd →
      Edge.get_job (Edge.delete_job job_id st).2 job_id = none := by
    intro job_id st jd h
    simp only [Edge.delete_job, h, Edge.deleteTrace, applyActs, List.foldl_append,
      List.foldl_cons, List.foldl_nil, applyAct]
    exact redisGet_delete_self _ _
  have gone_espeak : ∀ (job_id : String) (st : Store) (jd : JobRecord),
      Espeak.get_job st job_id = some jd →
      Espeak.get_job (Espeak.delete_job job_id st).2 job_id = none := by
    intro job_id st jd h
    simp only [Espeak.delete_job, h, Espeak.deleteTrace, applyActs, List.foldl_append,
      List.foldl_cons, List.foldl_nil, applyAct]
    exact redisGet_delete_self _ _
  have unlinks : ∀ (f : Segment → Option EAction)
      (hf : ∀ seg a, f seg = some a → ∃ p, a = EAction.unlinkFile p)
      (l : List Segment) (a : EAction), a ∈ l.filterMap f → ∃ p, a = EAction.unlinkFile p := by
    intro f hf l a ha
    obtain ⟨seg, _, hfa⟩ := List.mem_filterMap.mp ha
    exact hf seg a hfa
  refine ⟨?_, ?_, ?_, ?_, ?_, ?_⟩
  · exact del404_edge
  · intro job_id st jd h
    refine ⟨by unfold Edge.delete_job; rw [h], gone_edge job_id st jd h, ?_⟩
    rw [del404_edge _ _ (gone_edge job_id st jd h)]
  · intro job_id st jd h
    refine ⟨_, rfl, ?_⟩
    refine unlinks _ ?_ jd.segments
    intro seg a hfa
    by_cases hex : fsExists st (Edge.cachePathName job_id seg.id) = true
    · rw [if_pos hex] at hfa
      exact ⟨_, (Option.some_injective _ hfa).symm⟩
    · rw [if_neg hex] at hfa
      exact absurd hfa (by simp)
  · exact del404_espeak
  · intro job_id st jd h
    refine ⟨by unfold Espeak.delete_job; rw [h], gone_espeak job_id st jd h, ?_⟩
    rw [del404_espeak _ _ (gone_espeak job_id st jd h)]
  · intro job_id st jd h
    refine ⟨_, rfl, ?_⟩
    refine unlinks _ ?_ jd.segments
    intro seg a hfa
    by_cases hex : fsExists st (Espeak.cachePathName job_id seg.id) = true
    · rw [if_pos hex] at hfa
      exact ⟨_, (Option.some_injective _ hfa).symm⟩
    · rw [if_neg hex] at hfa
      exact absurd hfa (by simp)

/-- Witness for C6 at concrete inputs: deleting the absent job `j1` in the
empty store fails; deleting the present completed job succeeds, removes the
record, fails the second time; the delete trace ends with the record
deletion. -/
theorem C6_delete_semantics_witness :
    (Edge.delete_job "j1" Fx.stEmpty = (Except.error ⟨404, "Job not found"⟩, Fx.stEmpty)) ∧
    ((Edge.delete_job "j1" Fx.stCE1).1 = Except.ok "Job deleted successfully" ∧
      Edge.get_job (Edge.delete_job "j1" Fx.stCE1).2 "j1" = none ∧
      (Edge.delete_job "j1" (Edge.delete_job "j1" Fx.stCE1).2).1 =
        Except.error ⟨404, "Job not found"⟩) ∧
    (∃ us, Edge.deleteTrace "j1" Fx.jdCE Fx.stCE1 =
        us ++ [EAction.delJob (Edge.jobKey "j1")] ∧
      ∀ a ∈ us, ∃ p, a = EAction.unlinkFile p) ∧
    (Espeak.delete_job "j1" Fx.stEmpty = (Except.error ⟨404, "Job not found"⟩, Fx.stEmpty)) ∧
    ((Espeak.delete_job "j1" Fx.stCS1).1 = Except.ok "Job deleted successfully" ∧
      Espeak.get_job (Espeak.delete_job "j1" Fx.stCS1).2 "j1" = none ∧
      (Espeak.delete_job "j1" (Espeak.delete_job "j1" Fx.stCS1).2).1 =
        Except.error ⟨404, "Job not found"⟩) ∧
    (∃ us, Espeak.deleteTrace "j1" Fx.jdCS Fx.stCS1 =
        us ++ [EAction.delJob (Espeak.jobKey "j1")] ∧
      ∀ a ∈ us, ∃ p, a = EAction.unlinkFile p) :=
  ⟨C6_delete_semantics.1 "j1" Fx.stEmpty (by decide),
   C6_delete_semantics.2.1 "j1" Fx.stCE1 Fx.jdCE (by decide),
   C6_delete_semantics.2.2.1 "j1" Fx.stCE1 Fx.jdCE (by decide),
   C6_delete_semantics.2.2.2.1 "j1" Fx.stEmpty (by decide),
   C6_delete_semantics.2.2.2.2.1 "j1" Fx.stCS1 Fx.jdCS (by decide),
   C6_delete_semantics.2.2.2.2.2 "j1" Fx.stCS1 Fx.jdCS (by decide)⟩

/-- C8: in both services, every job-store write arms the full 3600-second
TTL: the creation write and every executor write (the `processing` write,
the terminal write, and the exception-handler write) attach expiry
`now + 3600`; and once an entry's expiry has lapsed the job is reported as
404 "Job not found" by `get_job_status`, not as a distinct expiry status. -/
theorem C8_ttl_refresh :
    (∀ (job_id : String) (outcome : Edge.SynthOutcome) (initial : Option JobRecord)
        (e : Nat), e ∈ writeExpiries (Edge.execTrace job_id outcome initial) →
        e = Edge.JOB_EXPIRY_SECONDS) ∧
    (∀ (req : SynthesisRequest) (job_id created_at : String) (st : Store),
        pyStrip req.text ≠ "" →
        redisExpiry (Edge.create_job req job_id created_at st).2 (Edge.jobKey job_id) =
          some (st.now + Edge.JOB_EXPIRY_SECONDS)) ∧
    (∀ (job_id msg : String) (st : Store) (jd : JobRecord),
        redisGet st (Edge.jobKey job_id) = some jd →
        redisExpiry (Edge.exec_on_exception job_id msg st) (Edge.jobKey job_id) =
          some (st.now + Edge.JOB_EXPIRY_SECONDS)) ∧
    (∀ (job_id : String) (st : Store) (k : String) (rec : JobRecord) (exp : Nat),
        st.jobs.find? (fun kv => kv.1 == Edge.jobKey job_id) = some (k, rec, exp) →
        exp ≤ st.now →
        Edge.get_job_status job_id st = Except.error ⟨404, "Job not found"⟩) ∧
    (∀ (job_id : String) (outcome : Espeak.SynthOutcome) (initial : Option JobRecord)
        (e : Nat), e ∈ writeExpiries (Espeak.execTrace job_id outcome initial) →
        e = Espeak.JOB_EXPIRY_SECONDS) ∧
    (∀ (req : SynthesisRequest) (job_id created_at : String) (st : Store),
        pyStrip req.text ≠ "" →
        redisExpiry (Espeak.create_job req job_id created_at st).2 (Espeak.jobKey job_id) =
          some (st.now + Espeak.JOB_EXPIRY_SECONDS)) ∧
    (∀ (job_id msg : String) (st : Store) (jd : JobRecord),
        redisGet st (Espeak.jobKey job_id) = some jd →
        redisExpiry (Espeak.exec_on_exception job_id msg st) (Espeak.jobKey job_id) =
          some (st.now + Espeak.JOB_EXPIRY_SECONDS)) ∧
    (∀ (job_id : String) (st : Store) (k : String) (rec : JobRecord) (exp : Nat),
        st.jobs.find? (fun kv => kv.1 == Espeak.jobKey job_id) = some (k, rec, exp) →
        exp ≤ st.now →
        Espeak.get_job_status job_id st = Except.error ⟨404, "Job not found"⟩) := by
  refine ⟨?_, ?_, ?_, ?_, ?_, ?_, ?_, ?_⟩
  · intro job_id outcome initial e he
    cases initial with
    | none => simp [Edge.execTrace, writeExpiries] at he
    | some jd =>
      cases outcome with
      | exn m =>
        simp [Edge.execTrace, writeExpiries] at he
        simp [he, Edge.JOB_EXPIRY_SECONDS]
      | stream events =>
        by_cases hc : Edge.audioChunks events = [] <;>
          · simp [Edge.execTrace, writeExpiries, hc] at he
            simp [he, Edge.JOB_EXPIRY_SECONDS]
  · intro req job_id created_at st h
    have ht : req.text ≠ "" := fun he => h (by rw [he]; rfl)
    unfold Edge.create_job
    rw [if_neg (by simp [ht, h])]
    exact redisExpiry_set_self _ _ _ _
  · intro job_id msg st jd h
    unfold Edge.exec_on_exception
    rw [h]
    exact redisExpiry_set_self _ _ _ _
  · intro job_id st k rec exp hf hexp
    unfold Edge.get_job_status Edge.get_job redisGet
    rw [hf]
    have hlt : ¬ st.now < exp := by omega
    simp [hlt]
  · intro job_id outcome initial e he
    cases initial with
    | none => simp [Espeak.execTrace, writeExpiries] at he
    | some jd =>
      cases outcome with
      | ranOk size =>
        by_cases hs : 0 < size <;>
          · simp [Espeak.execTrace, writeExpiries, hs] at he
            simp [he, Espeak.JOB_EXPIRY_SECONDS]
      | ranFail e2 =>
        simp [Espeak.execTrace, writeExpiries] at he
        simp [he, Espeak.JOB_EXPIRY_SECONDS]
      | timeout =>
        simp [Espeak.execTrace, writeExpiries] at he
        simp [he, Espeak.JOB_EXPIRY_SECONDS]
      | exn m =>
        simp [Espeak.execTrace, writeExpiries] at he
        simp [he, Espeak.JOB_EXPIRY_SECONDS]
  · intro req job_id created_at st h
    have ht : req.text ≠ "" := fun he => h (by rw [he]; rfl)
    unfold Espeak.create_job
    rw [if_neg (by simp [ht, h])]
    exact redisExpiry_set_self _ _ _ _
  · intro job_id msg st jd h
    unfold Espeak.exec_on_exception
    rw [h]
    exact redisExpiry_set_self _ _ _ _
  · intro job_id st k rec exp hf hexp
    unfold Espeak.get_job_status Espeak.get_job redisGet
    rw [hf]
    have hlt : ¬ st.now < exp := by omega
    simp [hlt]

/-- Witness for C8 at concrete inputs: the executor trace's writes carry TTL
3600, creation and the exception handler arm expiry `now + 3600`, and a
lapsed entry (expiry 10, clock 50) is reported as 404. -/
theorem C8_ttl_refresh_witness :
    ((3600 : Nat) = Edge.JOB_EXPIRY_SECONDS) ∧
    (redisExpiry (Edge.create_job ⟨"Hello world", none, none, none, none⟩ "j1" "t1"
        ⟨[], [], 0⟩).2 (Edge.jobKey "j1") = some (0 + Edge.JOB_EXPIRY_SECONDS)) ∧
    (redisExpiry (Edge.exec_on_exception "j1" "boom" Fx.stPendE) (Edge.jobKey "j1") =
      some (0 + Edge.JOB_EXPIRY_SECONDS)) ∧
    (Edge.get_job_status "j1" Fx.stExpE = Except.error ⟨404, "Job not found"⟩) ∧
    ((3600 : Nat) = Espeak.JOB_EXPIRY_SECONDS) ∧
    (redisExpiry (Espeak.create_job ⟨"Hello world", none, none, none, none⟩ "j1" "t1"
        ⟨[], [], 0⟩).2 (Espeak.jobKey "j1") = some (0 + Espeak.JOB_EXPIRY_SECONDS)) ∧
    (redisExpiry (Espeak.exec_on_exception "j1" "boom" Fx.stPendS) (Espeak.jobKey "j1") =
      some (0 + Espeak.JOB_EXPIRY_SECONDS)) ∧
    (Espeak.get_job_status "j1" Fx.stExpS = Except.error ⟨404, "Job not found"⟩) :=
  ⟨C8_ttl_refresh.1 "j1" (Edge.SynthOutcome.stream [Edge.StreamEvent.audio [1]])
     (some Fx.jdPendE) 3600 (by decide),
   C8_ttl_refresh.2.1 ⟨"Hello world", none, none, none, none⟩ "j1" "t1" ⟨[], [], 0⟩
     (by decide),
   C8_ttl_refresh.2.2.1 "j1" "boom" Fx.stPendE Fx.jdPendE (by decide),
   C8_ttl_refresh.2.2.2.1 "j1" Fx.stExpE "edge-tts:job:j1" Fx.jdPendE 10 (by decide)
     (by decide),
   C8_ttl_refresh.2.2.2.2.1 "j1" (Espeak.SynthOutcome.ranOk 4) (some Fx.jdPendS) 3600
     (by decide),
   C8_ttl_refresh.2.2.2.2.2.1 ⟨"Hello world", none, none, none, none⟩ "j1" "t1" ⟨[], [], 0⟩
     (by decide),
   C8_ttl_refresh.2.2.2.2.2.2.1 "j1" "boom" Fx.stPendS Fx.jdPendS (by decide),
   C8_ttl_refresh.2.2.2.2.2.2.2 "j1" Fx.stExpS "espeak-tts:job:j1" Fx.jdPendS 10 (by decide)
     (by decide)⟩

/-- C4: the statuses a single job's record receives are monotonic through
`pending → processing → {completed | failed}`.  For both services: the
executor's write sequence is exactly `[processing, completed]` or
`[processing, failed]`, so prefixed with the creation write `pending` the
status ranks are strictly increasing (no regression, and since terminal
states have maximal rank, no write follows a terminal one); the exception
handler, invoked while the record it re-reads is `processing`, writes
`failed` (a strict rank increase). -/
theorem C4_status_monotonic :
    (∀ (job_id : String) (outcome : Edge.SynthOutcome) (jd : JobRecord),
        writeStatuses (Edge.execTrace job_id outcome (some jd)) =
            [Status.processing, Status.completed] ∨
          writeStatuses (Edge.execTrace job_id outcome (some jd)) =
            [Status.processing, Status.failed]) ∧
    (∀ (job_id : String) (outcome : Edge.SynthOutcome) (initial : Option JobRecord),
        List.Chain' (fun a b => a.rank < b.rank)
          (Status.pending :: writeStatuses (Edge.execTrace job_id outcome initial))) ∧
    (∀ (job_id msg : String) (st : Store) (jd : JobRecord),
        redisGet st (Edge.jobKey job_id) = some jd → jd.status = Status.processing →
        redisGet (Edge.exec_on_exception job_id msg st) (Edge.jobKey job_id) =
            some { jd with status := Status.failed, error := some msg } ∧
          jd.status.rank < Status.failed.rank) ∧
    (∀ (job_id : String) (outcome : Espeak.SynthOutcome) (jd : JobRecord),
        writeStatuses (Espeak.execTrace job_id outcome (some jd)) =
            [Status.processing, Status.completed] ∨
          writeStatuses (Espeak.execTrace job_id outcome (some jd)) =
            [Status.processing, Status.failed]) ∧
    (∀ (job_id : String) (outcome : Espeak.SynthOutcome) (initial : Option JobRecord),
        List.Chain' (fun a b => a.rank < b.rank)
          (Status.pending :: writeStatuses (Espeak.execTrace job_id outcome initial))) ∧
    (∀ (job_id msg : String) (st : Store) (jd : JobRecord),
        redisGet st (Espeak.jobKey job_id) = some jd → jd.status = Status.processing →
        redisGet (Espeak.exec_on_exception job_id msg st) (Espeak.jobKey job_id) =
            some { jd with status := Status.failed, error := some msg } ∧
          jd.status.rank < Status.failed.rank) := by
  have hedge : ∀ (job_id : String) (outcome : Edge.SynthOutcome) (jd : JobRecord),
      writeStatuses (Edge.execTrace job_id outcome (some jd)) =
          [Status.processing, Status.completed] ∨
        writeStatuses (Edge.execTrace job_id outcome (some jd)) =
          [Status.processing, Status.failed] := by
    intro job_id outcome jd
    cases outcome with
    | exn m => right; simp [Edge.execTrace, writeStatuses]
    | stream events =>
      by_cases hc : Edge.audioChunks events = []
      · right; simp [Edge.execTrace, writeStatuses, hc]
      · left; simp [Edge.execTrace, writeStatuses, hc]
  have hespeak : ∀ (job_id : String) (outcome : Espeak.SynthOutcome) (jd : JobRecord),
      writeStatuses (Espeak.execTrace job_id outcome (some jd)) =
          [Status.processing, Status.completed] ∨
        writeStatuses (Espeak.execTrace job_id outcome (some jd)) =
          [Status.processing, Status.failed] := by
    intro job_id outcome jd
    cases outcome with
    | ranOk size =>
      by_cases hs : 0 < size
      · left; simp [Espeak.execTrace, writeStatuses, hs]
      · right; simp [Espeak.execTrace, writeStatuses, hs]
    | ranFail e => right; simp [Espeak.execTrace, writeStatuses]
    | timeout => right; simp [Espeak.execTrace, writeStatuses]
    | exn m => right; simp [Espeak.execTrace, writeStatuses]
  refine ⟨hedge, ?_, ?_, hespeak, ?_, ?_⟩
  · intro job_id outcome initial
    cases initial with
    | none => simp [Edge.execTrace, writeStatuses]
    | some jd =>
      rcases hedge job_id outcome jd with h | h <;>
        · rw [h]; simp [List.chain'_cons, Status.rank]
  · intro job_id msg st jd h hs
    refine ⟨?_, by rw [hs]; decide⟩
    unfold Edge.exec_on_exception
    rw [h]
    exact redisGet_set_self _ _ _ _ (by decide)
  · intro job_id outcome initial
    cases initial with
    | none => simp [Espeak.execTrace, writeStatuses]
    | some jd =>
      rcases hespeak job_id outcome jd with h | h <;>
        · rw [h]; simp [List.chain'_cons, Status.rank]
  · intro job_id msg st jd h hs
    refine ⟨?_, by rw [hs]; decide⟩
    unfold Espeak.exec_on_exception
    rw [h]
    exact redisGet_set_self _ _ _ _ (by decide)

/-- Witness for C4 at concrete inputs: a succeeding and a failing executor
run on each service, plus the exception handler on a processing record. -/
theorem C4_status_monotonic_witness :
    (writeStatuses (Edge.execTrace "j1" (Edge.SynthOutcome.stream [Edge.StreamEvent.audio [1]])
          (some Fx.jdPendE)) = [Status.processing, Status.completed] ∨
      writeStatuses (Edge.execTrace "j1" (Edge.SynthOutcome.stream [Edge.StreamEvent.audio [1]])
          (some Fx.jdPendE)) = [Status.processing, Status.failed]) ∧
    List.Chain' (fun a b => a.rank < b.rank)
      (Status.pending :: writeStatuses (Edge.execTrace "j1"
        (Edge.SynthOutcome.stream []) (some Fx.jdPendE))) ∧
    (redisGet (Edge.exec_on_exception "j1" "boom" Fx.stPE) (Edge.jobKey "j1") =
        some { Fx.jdPE with status := Status.failed, error := some "boom" } ∧
      Status.processing.rank < Status.failed.rank) ∧
    (writeStatuses (Espeak.execTrace "j1" (Espeak.SynthOutcome.ranOk 4)
          (some Fx.jdPendS)) = [Status.processing, Status.completed] ∨
      writeStatuses (Espeak.execTrace "j1" (Espeak.SynthOutcome.ranOk 4)
          (some Fx.jdPendS)) = [Status.processing, Status.failed]) ∧
    List.Chain' (fun a b => a.rank < b.rank)
      (Status.pending :: writeStatuses (Espeak.execTrace "j1"
        Espeak.SynthOutcome.timeout (some Fx.jdPendS))) ∧
    (redisGet (Espeak.exec_on_exception "j1" "boom" Fx.stPS) (Espeak.jobKey "j1") =
        some { Fx.jdPS with status := Status.failed, error := some "boom" } ∧
      Status.processing.rank < Status.failed.rank) :=
  ⟨C4_status_monotonic.1 "j1" (Edge.SynthOutcome.stream [Edge.StreamEvent.audio [1]])
     Fx.jdPendE,
   C4_status_monotonic.2.1 "j1" (Edge.SynthOutcome.stream []) (some Fx.jdPendE),
   C4_status_monotonic.2.2.1 "j1" "boom" Fx.stPE Fx.jdPE (by decide) (by decide),
   C4_status_monotonic.2.2.2.1 "j1" (Espeak.SynthOutcome.ranOk 4) Fx.jdPendS,
   C4_status_monotonic.2.2.2.2.1 "j1" Espeak.SynthOutcome.timeout (some Fx.jdPendS),
   C4_status_monotonic.2.2.2.2.2 "j1" "boom" Fx.stPS Fx.jdPS (by decide) (by decide)⟩

/-- C7: on the `processing → failed` transition both services capture an
error message into the record's `error` field: when the backend reports
failure, returns zero-length output, or throws inside the synthesis call,
the executor writes the fixed message "Synthesis failed" (the backend's
boolean protocol carries no message of its own); when a store-level
exception with message `msg` interrupts the executor, the handler captures
`msg` verbatim — unmodified and untruncated. -/
theorem C7_error_capture :
    (∀ (job_id text voice : String) (outcome : Edge.SynthOutcome) (st : Store)
        (jd : JobRecord),
        redisGet st (Edge.jobKey job_id) = some jd →
        (∀ events, outcome = Edge.SynthOutcome.stream events →
          Edge.audioChunks events = []) →
        redisGet (Edge.process_job_with_new_redis job_id text voice outcome st)
            (Edge.jobKey job_id) =
          some { jd with status := Status.failed, error := some "Synthesis failed" }) ∧
    (∀ (job_id msg : String) (st : Store) (jd : JobRecord),
        redisGet st (Edge.jobKey job_id) = some jd →
        redisGet (Edge.exec_on_exception job_id msg st) (Edge.jobKey job_id) =
          some { jd with status := Status.failed, error := some msg }) ∧
    (∀ (job_id text voice : String) (prefer_phonemes : Bool)
        (outcome : Espeak.SynthOutcome) (st : Store) (jd : JobRecord),
        redisGet st (Espeak.jobKey job_id) = some jd →
        (∀ n, outcome = Espeak.SynthOutcome.ranOk n → n = 0) →
        redisGet (Espeak.process_job_with_new_redis job_id text voice prefer_phonemes
            outcome st) (Espeak.jobKey job_id) =
          some { jd with status := Status.failed, error := some "Synthesis failed" }) ∧
    (∀ (job_id msg : String) (st : Store) (jd : JobRecord),
        redisGet st (Espeak.jobKey job_id) = some jd →
        redisGet (Espeak.exec_on_exception job_id msg st) (Espeak.jobKey job_id) =
          some { jd with status := Status.failed, error := some msg }) := by
  refine ⟨?_, ?_, ?_, ?_⟩
  · intro job_id text voice outcome st jd h hfail
    unfold Edge.process_job_with_new_redis
    rw [h]
    cases outcome with
    | exn m =>
      simp only [Edge.synthesize_text_with_timing]
      exact redisGet_set_self _ _ _ _ (by decide)
    | stream events =>
      have hc : Edge.audioChunks events = [] := hfail events rfl
      simp only [Edge.synthesize_text_with_timing, hc, ne_eq, not_true_eq_false,
        Bool.false_and, Bool.false_eq_true, if_false, reduceIte]
      exact redisGet_set_self _ _ _ _ (by decide)
  · intro job_id msg st jd h
    unfold Edge.exec_on_exception
    rw [h]
    exact redisGet_set_self _ _ _ _ (by decide)
  · intro job_id text voice prefer_phonemes outcome st jd h hfail
    unfold Espeak.process_job_with_new_redis
    rw [h]
    cases outcome with
    | ranOk size =>
      have hz : size = 0 := hfail size rfl
      subst hz
      simp only [Espeak.synthesize_text, fsExists_fsWrite_self, fsSize_fsWrite_self,
        Option.getD_some, Bool.true_and, Nat.lt_irrefl, decide_False, Bool.false_and,
        Bool.false_eq_true, if_false, reduceIte]
      exact redisGet_set_self _ _ _ _ (by decide)
    | ranFail e =>
      simp only [Espeak.synthesize_text]
      exact redisGet_set_self _ _ _ _ (by decide)
    | timeout =>
      simp only [Espeak.synthesize_text]
      exact redisGet_set_self _ _ _ _ (by decide)
    | exn m =>
      simp only [Espeak.synthesize_text]
      exact redisGet_set_self _ _ _ _ (by decide)
  · intro job_id msg st jd h
    unfold Espeak.exec_on_exception
    rw [h]
    exact redisGet_set_self _ _ _ _ (by decide)

/-- Witness for C7 at concrete inputs: an empty edge stream and a
zero-length espeak output yield `failed` with message "Synthesis failed";
the exception handler on each service captures the message "boom" verbatim. -/
theorem C7_error_capture_witness :
    (redisGet (Edge.process_job_with_new_redis "j1" "x" "v"
        (Edge.SynthOutcome.stream []) Fx.stPendE) (Edge.jobKey "j1") =
      some { Fx.jdPendE with status := Status.failed, error := some "Synthesis failed" }) ∧
    (redisGet (Edge.exec_on_exception "j1" "boom" Fx.stPendE) (Edge.jobKey "j1") =
      some { Fx.jdPendE with status := Status.failed, error := some "boom" }) ∧
    (redisGet (Espeak.process_job_with_new_redis "j1" "x" "v" false
        (Espeak.SynthOutcome.ranOk 0) Fx.stPendS) (Espeak.jobKey "j1") =
      some { Fx.jdPendS with status := Status.failed, error := some "Synthesis failed" }) ∧
    (redisGet (Espeak.exec_on_exception "j1" "boom" Fx.stPendS) (Espeak.jobKey "j1") =
      some { Fx.jdPendS with status := Status.failed, error := some "boom" }) :=
  ⟨C7_error_capture.1 "j1" "x" "v" (Edge.SynthOutcome.stream []) Fx.stPendE Fx.jdPendE
     (by decide) (by rintro events h; cases h; decide),
   C7_error_capture.2.1 "j1" "boom" Fx.stPendE Fx.jdPendE (by decide),
   C7_error_capture.2.2.1 "j1" "x" "v" false (Espeak.SynthOutcome.ranOk 0) Fx.stPendS
     Fx.jdPendS (by decide) (by rintro n h; cases h; rfl),
   C7_error_capture.2.2.2 "j1" "boom" Fx.stPendS Fx.jdPendS (by decide)⟩

/-- C1: write-before-publish.  For every job whose record is `pending` when
the executor re-reads it, at every intermediate point of the executor's
effect sequence (every prefix `take n` of its trace), if the job store shows
status `completed` then the segment's cache file is already present and
`get_segment_audio` for that job's single segment succeeds — it never
returns `NotFound` for the file.  Moreover any record the
exception handler leaves behind is either the `failed` record it wrote or a
record that was already in the store, so the handler never publishes
`completed` either.  Both services. -/
theorem C1_write_before_publish :
    (∀ (job_id text voice : String) (outcome : Edge.SynthOutcome) (st0 : Store)
        (rec0 : JobRecord) (n : Nat),
        redisGet st0 (Edge.jobKey job_id) = some rec0 →
        rec0.status = Status.pending →
        ∀ r, redisGet (applyActs st0 ((Edge.execTrace job_id outcome (some rec0)).take n))
            (Edge.jobKey job_id) = some r →
          r.status = Status.completed →
          Edge.get_segment_audio job_id (Edge.generate_segment_id job_id 0)
              (applyActs st0 ((Edge.execTrace job_id outcome (some rec0)).take n)) =
            Except.ok ⟨Edge.cachePathName job_id (Edge.generate_segment_id job_id 0),
              "audio/mpeg", Edge.generate_segment_id job_id 0 ++ ".mp3"⟩) ∧
    (∀ (job_id msg : String) (st : Store) (r : JobRecord),
        redisGet (Edge.exec_on_exception job_id msg st) (Edge.jobKey job_id) = some r →
        r.status = Status.failed ∨ redisGet st (Edge.jobKey job_id) = some r) ∧
    (∀ (job_id text voice : String) (prefer_phonemes : Bool)
        (outcome : Espeak.SynthOutcome) (st0 : Store) (rec0 : JobRecord) (n : Nat),
        redisGet st0 (Espeak.jobKey job_id) = some rec0 →
        rec0.status = Status.pending →
        ∀ r, redisGet (applyActs st0 ((Espeak.execTrace job_id outcome (some rec0)).take n))
            (Espeak.jobKey job_id) = some r →
          r.status = Status.completed →
          Espeak.get_segment_audio job_id (Espeak.generate_segment_id job_id 0)
              (applyActs st0 ((Espeak.execTrace job_id outcome (some rec0)).take n)) =
            Except.ok ⟨Espeak.cachePathName job_id (Espeak.generate_segment_id job_id 0),
              "audio/wav", Espeak.generate_segment_id job_id 0 ++ ".wav"⟩) ∧
    (∀ (job_id msg : String) (st : Store) (r : JobRecord),
        redisGet (Espeak.exec_on_exception job_id msg st) (Espeak.jobKey job_id) = some r →
        r.status = Status.failed ∨ redisGet st (Espeak.jobKey job_id) = some r) := by
  refine ⟨?_, ?_, ?_, ?_⟩
  · intro job_id text voice outcome st0 rec0 n h hpend r hr hc
    cases outcome with
    | exn m =>
      simp only [Edge.execTrace] at hr ⊢
      rcases n with _ | _ | _ | n <;>
        simp only [List.take_zero, List.take_succ_cons, List.take_nil, applyActs_nil,
          applyActs_cons, applyAct] at hr ⊢
      · obtain rfl : rec0 = r := Option.some_injective _ (h.symm.trans hr)
        rw [hpend] at hc
        exact Status.noConfusion hc
      · rw [edge_redisGet_set_expiry] at hr
        obtain rfl : _ = r := Option.some_injective _ hr
        simp at hc
      · rw [edge_redisGet_set_expiry] at hr
        obtain rfl : _ = r := Option.some_injective _ hr
        simp at hc
      · rw [edge_redisGet_set_expiry] at hr
        obtain rfl : _ = r := Option.some_injective _ hr
        simp at hc
    | stream events =>
      by_cases hch : Edge.audioChunks events = []
      · simp only [Edge.execTrace, hch, ne_eq, not_true_eq_false, if_false, reduceIte]
          at hr ⊢
        rcases n with _ | _ | _ | n <;>
          simp only [List.take_zero, List.take_succ_cons, List.take_nil, applyActs_nil,
            applyActs_cons, applyAct] at hr ⊢
        · obtain rfl : rec0 = r := Option.some_injective _ (h.symm.trans hr)
          rw [hpend] at hc
          exact Status.noConfusion hc
        · rw [edge_redisGet_set_expiry] at hr
          obtain rfl : _ = r := Option.some_injective _ hr
          simp at hc
        · rw [edge_redisGet_set_expiry] at hr
          obtain rfl : _ = r := Option.some_injective _ hr
          simp at hc
        · rw [edge_redisGet_set_expiry] at hr
          obtain rfl : _ = r := Option.some_injective _ hr
          simp at hc
      · simp only [Edge.execTrace, hch, ne_eq, not_false_eq_true, if_true, reduceIte]
          at hr ⊢
        rcases n with _ | _ | _ | _ | n <;>
          simp only [List.take_zero, List.take_succ_cons, List.take_nil, applyActs_nil,
            applyActs_cons, applyAct] at hr ⊢
        · obtain rfl : rec0 = r := Option.some_injective _ (h.symm.trans hr)
          rw [hpend] at hc
          exact Status.noConfusion hc
        · rw [edge_redisGet_set_expiry] at hr
          obtain rfl : _ = r := Option.some_injective _ hr
          simp at hc
        · rw [edge_redisGet_set_expiry] at hr
          obtain rfl : _ = r := Option.some_injective _ hr
          simp at hc
        · rw [redisGet_fsWrite, edge_redisGet_set_expiry] at hr
          obtain rfl : _ = r := Option.some_injective _ hr
          simp at hc
        · simp [Edge.get_segment_audio, Edge.get_job, edge_redisGet_set_expiry,
            Edge.completedSegment, fsExists_redisSet, fsExists_fsWrite_self,
            Edge.cachePathName]
  · intro job_id msg st r hr
    unfold Edge.exec_on_exception at hr
    cases hinit : redisGet st (Edge.jobKey job_id) with
    | none => rw [hinit] at hr; exact Or.inr (hinit.symm.trans hr)
    | some jd =>
      rw [hinit] at hr
      rw [edge_redisGet_set_expiry] at hr
      obtain rfl : _ = r := Option.some_injective _ hr
      exact Or.inl rfl
  · intro job_id text voice prefer_phonemes outcome st0 rec0 n h hpend r hr hc
    cases outcome with
    | ranOk size =>
      by_cases hs : 0 < size
      · simp only [Espeak.execTrace, hs, if_true, reduceIte] at hr ⊢
        rcases n with _ | _ | _ | _ | n <;>
          simp only [List.take_zero, List.take_succ_cons, List.take_nil, applyActs_nil,
            applyActs_cons, applyAct] at hr ⊢
        · obtain rfl : rec0 = r := Option.some_injective _ (h.symm.trans hr)
          rw [hpend] at hc
          exact Status.noConfusion hc
        · rw [espeak_redisGet_set_expiry] at hr
          obtain rfl : _ = r := Option.some_injective _ hr
          simp at hc
        · rw [espeak_redisGet_set_expiry] at hr
          obtain rfl : _ = r := Option.some_injective _ hr
          simp at hc
        · rw [redisGet_fsWrite, espeak_redisGet_set_expiry] at hr
          obtain rfl : _ = r := Option.some_injective _ hr
          simp at hc
        · simp [Espeak.get_segment_audio, Espeak.get_job, espeak_redisGet_set_expiry,
            Espeak.completedSegment, fsExists_redisSet, fsExists_fsWrite_self,
            Espeak.cachePathName]
      · simp only [Espeak.execTrace, hs, if_false, reduceIte] at hr ⊢
        rcases n with _ | _ | _ | _ | n <;>
          simp only [List.take_zero, List.take_succ_cons, List.take_nil, applyActs_nil,
            applyActs_cons, applyAct] at hr ⊢
        · obtain rfl : rec0 = r := Option.some_injective _ (h.symm.trans hr)
          rw [hpend] at hc
          exact Status.noConfusion hc
        · rw [espeak_redisGet_set_expiry] at hr
          obtain rfl : _ = r := Option.some_injective _ hr
          simp at hc
        · rw [espeak_redisGet_set_expiry] at hr
          obtain rfl : _ = r := Option.some_injective _ hr
          simp at hc
        · rw [redisGet_fsWrite, espeak_redisGet_set_expiry] at hr
          obtain rfl : _ = r := Option.some_injective _ hr
          simp at hc
        · rw [espeak_redisGet_set_expiry] at hr
          obtain rfl : _ = r := Option.some_injective _ hr
          simp at hc
    | ranFail e =>
      simp only [Espeak.execTrace] at hr ⊢
      rcases n with _ | _ | _ | n <;>
        simp only [List.take_zero, List.take_succ_cons, List.take_nil, applyActs_nil,
          applyActs_cons, applyAct] at hr ⊢
      · obtain rfl : rec0 = r := Option.some_injective _ (h.symm.trans hr)
        rw [hpend] at hc
        exact Status.noConfusion hc
      · rw [espeak_redisGet_set_expiry] at hr
        obtain rfl : _ = r := Option.some_injective _ hr
        simp at hc
      · rw [espeak_redisGet_set_expiry] at hr
        obtain rfl : _ = r := Option.some_injective _ hr
        simp at hc
      · rw [espeak_redisGet_set_expiry] at hr
        obtain rfl : _ = r := Option.some_injective _ hr
        simp at hc
    | timeout =>
      simp only [Espeak.execTrace] at hr ⊢
      rcases n with _ | _ | _ | n <;>
        simp only [List.take_zero, List.take_succ_cons, List.take_nil, applyActs_nil,
          applyActs_cons, applyAct] at hr ⊢
      · obtain rfl : rec0 = r := Option.some_injective _ (h.symm.trans hr)
        rw [hpend] at hc
        exact Status.noConfusion hc
      · rw [espeak_redisGet_set_expiry] at hr
        obtain rfl : _ = r := Option.some_injective _ hr
        simp at hc
      · rw [espeak_redisGet_set_expiry] at hr
        obtain rfl : _ = r := Option.some_injective _ hr
        simp at hc
      · rw [espeak_redisGet_set_expiry] at hr
        obtain rfl : _ = r := Option.some_injective _ hr
        simp at hc
    | exn m =>
      simp only [Espeak.execTrace] at hr ⊢
      rcases n with _ | _ | _ | n <;>
        simp only [List.take_zero, List.take_succ_cons, List.take_nil, applyActs_nil,
          applyActs_cons, applyAct] at hr ⊢
      · obtain rfl : rec0 = r := Option.some_injective _ (h.symm.trans hr)
        rw [hpend] at hc
        exact Status.noConfusion hc
      · rw [espeak_redisGet_set_expiry] at hr
        obtain rfl : _ = r := Option.some_injective _ hr
        simp at hc
      · rw [espeak_redisGet_set_expiry] at hr
        obtain rfl : _ = r := Option.some_injective _ hr
        simp at hc
      · rw [espeak_redisGet_set_expiry] at hr
        obtain rfl : _ = r := Option.some_injective _ hr
        simp at hc
  · intro job_id msg st r hr
    unfold Espeak.exec_on_exception at hr
    cases hinit : redisGet st (Espeak.jobKey job_id) with
    | none => rw [hinit] at hr; exact Or.inr (hinit.symm.trans hr)
    | some jd =>
      rw [hinit] at hr
      rw [espeak_redisGet_set_expiry] at hr
      obtain rfl : _ = r := Option.some_injective _ hr
      exact Or.inl rfl

/-- Witness for C1 at concrete inputs: after the full 4-step success trace
(`n = 4`) of each executor, the store shows `completed` and
`get_segment_audio` serves the file; the exception handler applied to a
pending record leaves a `failed` record. -/
theorem C1_write_before_publish_witness :
    (Edge.get_segment_audio "j1" (Edge.generate_segment_id "j1" 0)
        (applyActs Fx.stPendE ((Edge.execTrace "j1"
          (Edge.SynthOutcome.stream [Edge.StreamEvent.audio [1, 2]])
          (some Fx.jdPendE)).take 4)) =
      Except.ok ⟨Edge.cachePathName "j1" (Edge.generate_segment_id "j1" 0),
        "audio/mpeg", Edge.generate_segment_id "j1" 0 ++ ".mp3"⟩) ∧
    (({ Fx.jdPendE with
          status := Status.failed,
          error := some "boom" } : JobRecord).status = Status.failed ∨
      redisGet Fx.stPendE (Edge.jobKey "j1") =
        some { Fx.jdPendE with status := Status.failed, error := some "boom" }) ∧
    (Espeak.get_segment_audio "j1" (Espeak.generate_segment_id "j1" 0)
        (applyActs Fx.stPendS ((Espeak.execTrace "j1"
          (Espeak.SynthOutcome.ranOk 4) (some Fx.jdPendS)).take 4)) =
      Except.ok ⟨Espeak.cachePathName "j1" (Espeak.generate_segment_id "j1" 0),
        "audio/wav", Espeak.generate_segment_id "j1" 0 ++ ".wav"⟩) ∧
    (({ Fx.jdPendS with
          status := Status.failed,
          error := some "boom" } : JobRecord).status = Status.failed ∨
      redisGet Fx.stPendS (Espeak.jobKey "j1") =
        some { Fx.jdPendS with status := Status.failed, error := some "boom" }) :=
  ⟨C1_write_before_publish.1 "j1" "x" "v"
     (Edge.SynthOutcome.stream [Edge.StreamEvent.audio [1, 2]]) Fx.stPendE Fx.jdPendE 4
     (by decide) (by decide)
     ⟨"j1", .completed, "t", 2, "v", none, [Edge.completedSegment "j1" "j1-seg-0" 2 []], none⟩
     (by decide) (by decide),
   C1_write_before_publish.2.1 "j1" "boom" Fx.stPendE
     { Fx.jdPendE with status := Status.failed, error := some "boom" } (by decide),
   C1_write_before_publish.2.2.1 "j1" "x" "v" false (Espeak.SynthOutcome.ranOk 4)
     Fx.stPendS Fx.jdPendS 4 (by decide) (by decide)
     ⟨"j1", .completed, "t", 2, "v", some false, [Espeak.completedSegment "j1" "j1-seg-0" 4],
       none⟩
     (by decide) (by decide),
   C1_write_before_publish.2.2.2 "j1" "boom" Fx.stPendS
     { Fx.jdPendS with status := Status.failed, error := some "boom" } (by decide)⟩

/-- C9: if the initial re-read finds no record, the executor returns with
the store untouched and its effect trace is empty — in particular the
Synthesis Backend is never invoked; if the record was present, the trace
ends in a job-store `SET` of a terminal record with the full TTL, and a
`SET` is unconditional: applied to any store in which the key is absent
(deleted or expired mid-flight) it re-creates the entry with that terminal
record and a fresh expiry `now + ttl` — no existence re-check precedes it. -/
theorem C9_absent_start_and_unconditional_terminal_write :
    (∀ (job_id text voice : String) (outcome : Edge.SynthOutcome) (st : Store),
        redisGet st (Edge.jobKey job_id) = none →
        Edge.process_job_with_new_redis job_id text voice outcome st = st) ∧
    (∀ (job_id : String) (outcome : Edge.SynthOutcome),
        Edge.execTrace job_id outcome none = []) ∧
    (∀ (job_id : String) (outcome : Edge.SynthOutcome) (rec0 : JobRecord),
        ∃ rec', (Edge.execTrace job_id outcome (some rec0)).getLast? =
            some (EAction.setJob (Edge.jobKey job_id) rec' Edge.JOB_EXPIRY_SECONDS) ∧
          rec'.status.isTerminal = true) ∧
    (∀ (job_id text voice : String) (prefer_phonemes : Bool)
        (outcome : Espeak.SynthOutcome) (st : Store),
        redisGet st (Espeak.jobKey job_id) = none →
        Espeak.process_job_with_new_redis job_id text voice prefer_phonemes outcome st = st) ∧
    (∀ (job_id : String) (outcome : Espeak.SynthOutcome),
        Espeak.execTrace job_id outcome none = []) ∧
    (∀ (job_id : String) (outcome : Espeak.SynthOutcome) (rec0 : JobRecord),
        ∃ rec', (Espeak.execTrace job_id outcome (some rec0)).getLast? =
            some (EAction.setJob (Espeak.jobKey job_id) rec' Espeak.JOB_EXPIRY_SECONDS) ∧
          rec'.status.isTerminal = true) ∧
    (∀ (key : String) (rec' : JobRecord) (e : Nat) (st' : Store), 0 < e →
        redisGet st' key = none →
        redisGet (applyAct st' (EAction.setJob key rec' e)) key = some rec' ∧
        redisExpiry (applyAct st' (EAction.setJob key rec' e)) key =
          some (st'.now + e)) := by
  refine ⟨?_, ?_, ?_, ?_, ?_, ?_, ?_⟩
  · intro job_id text voice outcome st h
    unfold Edge.process_job_with_new_redis
    rw [h]
  · intro job_id outcome
    rfl
  · intro job_id outcome rec0
    cases outcome with
    | exn m =>
      exact ⟨{ rec0 with status := Status.failed, error := some "Synthesis failed" },
        rfl, rfl⟩
    | stream events =>
      by_cases hch : Edge.audioChunks events = []
      · refine ⟨{ rec0 with status := Status.failed, error := some "Synthesis failed" },
          ?_, rfl⟩
        simp [Edge.execTrace, hch]
      · refine ⟨{ rec0 with
            status := Status.completed,
            segments := [Edge.completedSegment job_id (Edge.generate_segment_id job_id 0)
              (List.sum ((Edge.audioChunks events).map List.length))
              (Edge.wordTimings events)] }, ?_, rfl⟩
        simp [Edge.execTrace, hch]
  · intro job_id text voice prefer_phonemes outcome st h
    unfold Espeak.process_job_with_new_redis
    rw [h]
  · intro job_id outcome
    rfl
  · intro job_id outcome rec0
    cases outcome with
    | ranOk size =>
      by_cases hs : 0 < size
      · refine ⟨{ rec0 with
            status := Status.completed,
            segments := [Espeak.completedSegment job_id
              (Espeak.generate_segment_id job_id 0) size] }, ?_, rfl⟩
        simp [Espeak.execTrace, hs]
      · refine ⟨{ rec0 with status := Status.failed, error := some "Synthesis failed" },
          ?_, rfl⟩
        simp [Espeak.execTrace, hs]
    | ranFail e =>
      exact ⟨{ rec0 with status := Status.failed, error := some "Synthesis failed" },
        rfl, rfl⟩
    | timeout =>
      exact ⟨{ rec0 with status := Status.failed, error := some "Synthesis failed" },
        rfl, rfl⟩
    | exn m =>
      exact ⟨{ rec0 with status := Status.failed, error := some "Synthesis failed" },
        rfl, rfl⟩
  · intro key rec' e st' he _
    exact ⟨redisGet_set_self _ _ _ _ he, redisExpiry_set_self _ _ _ _⟩

/-- Witness for C9 at concrete inputs: an executor started on the empty
store leaves it untouched with an empty trace; a pending record's success
trace ends in a terminal `SET`, and a terminal `SET` re-creates the entry
in the empty store with a fresh expiry. -/
theorem C9_absent_start_and_unconditional_terminal_write_witness :
    (Edge.process_job_with_new_redis "j1" "x" "v"
        (Edge.SynthOutcome.stream [Edge.StreamEvent.audio [1, 2]]) Fx.stEmpty =
      Fx.stEmpty) ∧
    (Edge.execTrace "j1" (Edge.SynthOutcome.stream [Edge.StreamEvent.audio [1, 2]])
        none = []) ∧
    (∃ rec', (Edge.execTrace "j1" (Edge.SynthOutcome.stream [Edge.StreamEvent.audio [1, 2]])
          (some Fx.jdPendE)).getLast? =
        some (EAction.setJob (Edge.jobKey "j1") rec' Edge.JOB_EXPIRY_SECONDS) ∧
      rec'.status.isTerminal = true) ∧
    (Espeak.process_job_with_new_redis "j1" "x" "v" false (Espeak.SynthOutcome.ranOk 4)
        Fx.stEmpty = Fx.stEmpty) ∧
    (Espeak.execTrace "j1" (Espeak.SynthOutcome.ranOk 4) none = []) ∧
    (∃ rec', (Espeak.execTrace "j1" (Espeak.SynthOutcome.ranOk 4)
          (some Fx.jdPendS)).getLast? =
        some (EAction.setJob (Espeak.jobKey "j1") rec' Espeak.JOB_EXPIRY_SECONDS) ∧
      rec'.status.isTerminal = true) ∧
    (redisGet (applyAct Fx.stEmpty (EAction.setJob "edge-tts:job:j1" Fx.jdCE 3600))
        "edge-tts:job:j1" = some Fx.jdCE ∧
      redisExpiry (applyAct Fx.stEmpty (EAction.setJob "edge-tts:job:j1" Fx.jdCE 3600))
        "edge-tts:job:j1" = some (Fx.stEmpty.now + 3600)) :=
  ⟨C9_absent_start_and_unconditional_terminal_write.1 "j1" "x" "v"
     (Edge.SynthOutcome.stream [Edge.StreamEvent.audio [1, 2]]) Fx.stEmpty (by decide),
   C9_absent_start_and_unconditional_terminal_write.2.1 "j1"
     (Edge.SynthOutcome.stream [Edge.StreamEvent.audio [1, 2]]),
   C9_absent_start_and_unconditional_terminal_write.2.2.1 "j1"
     (Edge.SynthOutcome.stream [Edge.StreamEvent.audio [1, 2]]) Fx.jdPendE,
   C9_absent_start_and_unconditional_terminal_write.2.2.2.1 "j1" "x" "v" false
     (Espeak.SynthOutcome.ranOk 4) Fx.stEmpty (by decide),
   C9_absent_start_and_unconditional_terminal_write.2.2.2.2.1 "j1"
     (Espeak.SynthOutcome.ranOk 4),
   C9_absent_start_and_unconditional_terminal_write.2.2.2.2.2.1 "j1"
     (Espeak.SynthOutcome.ranOk 4) Fx.jdPendS,
   C9_absent_start_and_unconditional_terminal_write.2.2.2.2.2.2 "edge-tts:job:j1"
     Fx.jdCE 3600 Fx.stEmpty (by decide) (by decide)⟩

/-- C10: `get_segment_audio` touches the cache only for segment ids listed
in the requested job's own record.  For both services: if the supplied
segment id matches no entry of the job's segments list, the result is 404
"Segment not found" for every possible cache contents (no cache path is
consulted); if the record's segments all carry the job's own derived
segment id — as every record the executor writes from a freshly created
(segment-less) record does — then any successful response is for exactly
that id and its file name; and the derived segment id is injective in the
job id, so the served file can never belong to a different job. -/
theorem C10_segment_isolation :
    (∀ (job_id segment_id : String) (st : Store) (jd : JobRecord)
        (cache' : List (String × Nat)),
        Edge.get_job st job_id = some jd → jd.status = Status.completed →
        (∀ seg ∈ jd.segments, seg.id ≠ segment_id) →
        Edge.get_segment_audio job_id segment_id { st with cache := cache' } =
          Except.error ⟨404, "Segment not found"⟩) ∧
    (∀ (job_id segment_id : String) (st : Store) (jd : JobRecord) (resp : AudioResponse),
        Edge.get_job st job_id = some jd →
        (∀ seg ∈ jd.segments, seg.id = Edge.generate_segment_id job_id 0) →
        Edge.get_segment_audio job_id segment_id st = Except.ok resp →
        segment_id = Edge.generate_segment_id job_id 0 ∧
        resp.path = Edge.cachePathName job_id (Edge.generate_segment_id job_id 0)) ∧
    (∀ (job_id : String) (outcome : Edge.SynthOutcome) (rec0 : JobRecord),
        rec0.segments = [] →
        ∀ (k : String) (rec : JobRecord) (ex : Nat),
          EAction.setJob k rec ex ∈ Edge.execTrace job_id outcome (some rec0) →
          ∀ seg ∈ rec.segments, seg.id = Edge.generate_segment_id job_id 0) ∧
    (∀ (job_id1 job_id2 : String), job_id1 ≠ job_id2 →
        Edge.generate_segment_id job_id1 0 ≠ Edge.generate_segment_id job_id2 0) ∧
    (∀ (job_id segment_id : String) (st : Store) (jd : JobRecord)
        (cache' : List (String × Nat)),
        Espeak.get_job st job_id = some jd → jd.status = Status.completed →
        (∀ seg ∈ jd.segments, seg.id ≠ segment_id) →
        Espeak.get_segment_audio job_id segment_id { st with cache := cache' } =
          Except.error ⟨404, "Segment not found"⟩) ∧
    (∀ (job_id segment_id : String) (st : Store) (jd : JobRecord) (resp : AudioResponse),
        Espeak.get_job st job_id = some jd →
        (∀ seg ∈ jd.segments, seg.id = Espeak.generate_segment_id job_id 0) →
        Espeak.get_segment_audio job_id segment_id st = Except.ok resp →
        segment_id = Espeak.generate_segment_id job_id 0 ∧
        resp.path = Espeak.cachePathName job_id (Espeak.generate_segment_id job_id 0)) ∧
    (∀ (job_id : String) (outcome : Espeak.SynthOutcome) (rec0 : JobRecord),
        rec0.segments = [] →
        ∀ (k : String) (rec : JobRecord) (ex : Nat),
          EAction.setJob k rec ex ∈ Espeak.execTrace job_id outcome (some rec0) →
          ∀ seg ∈ rec.segments, seg.id = Espeak.generate_segment_id job_id 0) ∧
    (∀ (job_id1 job_id2 : String), job_id1 ≠ job_id2 →
        Espeak.generate_segment_id job_id1 0 ≠ Espeak.generate_segment_id job_id2 0) := by
  have hinj : ∀ (a b : String),
      a ++ "-seg-" ++ toString 0 = b ++ "-seg-" ++ toString 0 → a = b := by
    intro a b hab
    exact string_append_cancel_right a b "-seg-"
      (string_append_cancel_right (a ++ "-seg-") (b ++ "-seg-") (toString 0) hab)
  refine ⟨?_, ?_, ?_, ?_, ?_, ?_, ?_, ?_⟩
  · intro job_id segment_id st jd cache' h hc hnone
    have h' : Edge.get_job { st with cache := cache' } job_id = some jd := h
    have hfind : jd.segments.find? (fun seg => seg.id == segment_id) = none := by
      rw [List.find?_eq_none]
      intro seg hseg
      simp [hnone seg hseg]
    simp [Edge.get_segment_audio, h', hc, hfind]
  · intro job_id segment_id st jd resp h hall hok
    unfold Edge.get_segment_audio at hok
    rw [h] at hok
    replace hok :
        (if jd.status ≠ Status.completed then
            (Except.error ⟨400, "Job is " ++ jd.status.str ++ ", not completed"⟩ :
              Except ApiError AudioResponse)
          else
            match jd.segments.find? (fun seg => seg.id == segment_id) with
            | none => Except.error ⟨404, "Segment not found"⟩
            | some _segment =>
              if fsExists st (Edge.cachePathName job_id segment_id) = true then
                Except.ok ⟨Edge.cachePathName job_id segment_id, "audio/mpeg",
                  segment_id ++ ".mp3"⟩
              else Except.error ⟨404, "Audio file not found"⟩) = Except.ok resp := hok
    by_cases hc : jd.status = Status.completed
    · rw [if_neg (by simp [hc])] at hok
      cases hfind : jd.segments.find? (fun seg => seg.id == segment_id) with
      | none => rw [hfind] at hok; exact absurd hok (by simp)
      | some seg =>
        rw [hfind] at hok
        have hmem := List.mem_of_find?_eq_some hfind
        have hpred := List.find?_some hfind
        have hid : seg.id = segment_id := by simpa using hpred
        have hsid : segment_id = Edge.generate_segment_id job_id 0 :=
          hid ▸ (hall seg hmem)
        by_cases hex : fsExists st (Edge.cachePathName job_id segment_id) = true
        · rw [if_pos hex] at hok
          replace hok : Except.ok (⟨Edge.cachePathName job_id segment_id, "audio/mpeg",
              segment_id ++ ".mp3"⟩ : AudioResponse) = Except.ok resp := hok
          have hresp := Except.ok.inj hok
          refine ⟨hsid, ?_⟩
          rw [← hresp, ← hsid]
        · rw [if_neg hex] at hok
          replace hok : (Except.error ⟨404, "Audio file not found"⟩ :
              Except ApiError AudioResponse) = Except.ok resp := hok
          exact absurd hok (by simp)
    · rw [if_pos (by simp [hc])] at hok
      exact absurd hok (by simp)
  · intro job_id outcome rec0 hseg0 k rec ex hmem seg hseg
    cases outcome with
    | exn m =>
      simp only [Edge.execTrace, List.mem_cons, List.not_mem_nil, or_false] at hmem
      rcases hmem with h1 | h1 | h1
      · obtain ⟨-, rfl, -⟩ := EAction.setJob.inj h1
        have hseg2 : seg ∈ rec0.segments := hseg
        rw [hseg0] at hseg2
        exact absurd hseg2 (List.not_mem_nil seg)
      · exact absurd h1 (by simp)
      · obtain ⟨-, rfl, -⟩ := EAction.setJob.inj h1
        have hseg2 : seg ∈ rec0.segments := hseg
        rw [hseg0] at hseg2
        exact absurd hseg2 (List.not_mem_nil seg)
    | stream events =>
      by_cases hch : Edge.audioChunks events = []
      · simp only [Edge.execTrace, hch, ne_eq, not_true_eq_false, if_false, reduceIte,
          List.mem_cons, List.not_mem_nil, or_false] at hmem
        rcases hmem with h1 | h1 | h1
        · obtain ⟨-, rfl, -⟩ := EAction.setJob.inj h1
          have hseg2 : seg ∈ rec0.segments := hseg
          rw [hseg0] at hseg2
          exact absurd hseg2 (List.not_mem_nil seg)
        · exact absurd h1 (by simp)
        · obtain ⟨-, rfl, -⟩ := EAction.setJob.inj h1
          have hseg2 : seg ∈ rec0.segments := hseg
          rw [hseg0] at hseg2
          exact absurd hseg2 (List.not_mem_nil seg)
      · simp only [Edge.execTrace, hch, ne_eq, not_false_eq_true, if_true, reduceIte,
          List.mem_cons, List.not_mem_nil, or_false] at hmem
        rcases hmem with h1 | h1 | h1 | h1
        · obtain ⟨-, rfl, -⟩ := EAction.setJob.inj h1
          have hseg2 : seg ∈ rec0.segments := hseg
          rw [hseg0] at hseg2
          exact absurd hseg2 (List.not_mem_nil seg)
        · exact absurd h1 (by simp)
        · exact absurd h1 (by simp)
        · obtain ⟨-, rfl, -⟩ := EAction.setJob.inj h1
          have hseg2 : seg ∈ [Edge.completedSegment job_id
            (Edge.generate_segment_id job_id 0)
            (List.sum ((Edge.audioChunks events).map List.length))
            (Edge.wordTimings events)] := hseg
          rw [List.mem_singleton] at hseg2
          rw [hseg2]
          rfl
  · intro job_id1 job_id2 hne h
    exact hne (hinj job_id1 job_id2 h)
  · intro job_id segment_id st jd cache' h hc hnone
    have h' : Espeak.get_job { st with cache := cache' } job_id = some jd := h
    have hfind : jd.segments.find? (fun seg => seg.id == segment_id) = none := by
      rw [List.find?_eq_none]
      intro seg hseg
      simp [hnone seg hseg]
    simp [Espeak.get_segment_audio, h', hc, hfind]
  · intro job_id segment_id st jd resp h hall hok
    unfold Espeak.get_segment_audio at hok
    rw [h] at hok
    replace hok :
        (if jd.status ≠ Status.completed then
            (Except.error ⟨400, "Job is " ++ jd.status.str ++ ", not completed"⟩ :
              Except ApiError AudioResponse)
          else
            match jd.segments.find? (fun seg => seg.id == segment_id) with
            | none => Except.error ⟨404, "Segment not found"⟩
            | some _segment =>
              if fsExists st (Espeak.cachePathName job_id segment_id) = true then
                Except.ok ⟨Espeak.cachePathName job_id segment_id, "audio/wav",
                  segment_id ++ ".wav"⟩
              else Except.error ⟨404, "Audio file not found"⟩) = Except.ok resp := hok
    by_cases hc : jd.status = Status.completed
    · rw [if_neg (by simp [hc])] at hok
      cases hfind : jd.segments.find? (fun seg => seg.id == segment_id) with
      | none => rw [hfind] at hok; exact absurd hok (by simp)
      | some seg =>
        rw [hfind] at hok
        have hmem := List.mem_of_find?_eq_some hfind
        have hpred := List.find?_some hfind
        have hid : seg.id = segment_id := by simpa using hpred
        have hsid : segment_id = Espeak.generate_segment_id job_id 0 :=
          hid ▸ (hall seg hmem)
        by_cases hex : fsExists st (Espeak.cachePathName job_id segment_id) = true
        · rw [if_pos hex] at hok
          replace hok : Except.ok (⟨Espeak.cachePathName job_id segment_id, "audio/wav",
              segment_id ++ ".wav"⟩ : AudioResponse) = Except.ok resp := hok
          have hresp := Except.ok.inj hok
          refine ⟨hsid, ?_⟩
          rw [← hresp, ← hsid]
        · rw [if_neg hex] at hok
          replace hok : (Except.error ⟨404, "Audio file not found"⟩ :
              Except ApiError AudioResponse) = Except.ok resp := hok
          exact absurd hok (by simp)
    · rw [if_pos (by simp [hc])] at hok
      exact absurd hok (by simp)
  · intro job_id outcome rec0 hseg0 k rec ex hmem seg hseg
    cases outcome with
    | ranOk size =>
      by_cases hs : 0 < size
      · simp only [Espeak.execTrace, hs, if_true, reduceIte, List.mem_cons,
          List.not_mem_nil, or_false] at hmem
        rcases hmem with h1 | h1 | h1 | h1
        · obtain ⟨-, rfl, -⟩ := EAction.setJob.inj h1
          have hseg2 : seg ∈ rec0.segments := hseg
          rw [hseg0] at hseg2
          exact absurd hseg2 (List.not_mem_nil seg)
        · exact absurd h1 (by simp)
        · exact absurd h1 (by simp)
        · obtain ⟨-, rfl, -⟩ := EAction.setJob.inj h1
          have hseg2 : seg ∈ [Espeak.completedSegment job_id
            (Espeak.generate_segment_id job_id 0) size] := hseg
          rw [List.mem_singleton] at hseg2
          rw [hseg2]
          rfl
      · simp only [Espeak.execTrace, hs, if_false, reduceIte, List.mem_cons,
          List.not_mem_nil, or_false] at hmem
        rcases hmem with h1 | h1 | h1 | h1
        · obtain ⟨-, rfl, -⟩ := EAction.setJob.inj h1
          have hseg2 : seg ∈ rec0.segments := hseg
          rw [hseg0] at hseg2
          exact absurd hseg2 (List.not_mem_nil seg)
        · exact absurd h1 (by simp)
        · exact absurd h1 (by simp)
        · obtain ⟨-, rfl, -⟩ := EAction.setJob.inj h1
          have hseg2 : seg ∈ rec0.segments := hseg
          rw [hseg0] at hseg2
          exact absurd hseg2 (List.not_mem_nil seg)
    | ranFail e =>
      simp only [Espeak.execTrace, List.mem_cons, List.not_mem_nil, or_false] at hmem
      rcases hmem with h1 | h1 | h1
      · obtain ⟨-, rfl, -⟩ := EAction.setJob.inj h1
        have hseg2 : seg ∈ rec0.segments := hseg
        rw [hseg0] at hseg2
        exact absurd hseg2 (List.not_mem_nil seg)
      · exact absurd h1 (by simp)
      · obtain ⟨-, rfl, -⟩ := EAction.setJob.inj h1
        have hseg2 : seg ∈ rec0.segments := hseg
        rw [hseg0] at hseg2
        exact absurd hseg2 (List.not_mem_nil seg)
    | timeout =>
      simp only [Espeak.execTrace, List.mem_cons, List.not_mem_nil, or_false] at hmem
      rcases hmem with h1 | h1 | h1
      · obtain ⟨-, rfl, -⟩ := EAction.setJob.inj h1
        have hseg2 : seg ∈ rec0.segments := hseg
        rw [hseg0] at hseg2
        exact absurd hseg2 (List.not_mem_nil seg)
      · exact absurd h1 (by simp)
      · obtain ⟨-, rfl, -⟩ := EAction.setJob.inj h1
        have hseg2 : seg ∈ rec0.segments := hseg
        rw [hseg0] at hseg2
        exact absurd hseg2 (List.not_mem_nil seg)
    | exn m =>
      simp only [Espeak.execTrace, List.mem_cons, List.not_mem_nil, or_false] at hmem
      rcases hmem with h1 | h1 | h1
      · obtain ⟨-, rfl, -⟩ := EAction.setJob.inj h1
        have hseg2 : seg ∈ rec0.segments := hseg
        rw [hseg0] at hseg2
        exact absurd hseg2 (List.not_mem_nil seg)
      · exact absurd h1 (by simp)
      · obtain ⟨-, rfl, -⟩ := EAction.setJob.inj h1
        have hseg2 : seg ∈ rec0.segments := hseg
        rw [hseg0] at hseg2
        exact absurd hseg2 (List.not_mem_nil seg)
  · intro job_id1 job_id2 hne h
    exact hne (hinj job_id1 job_id2 h)

/-- Witness for C10 at concrete inputs: an unlisted segment id is rejected
under an arbitrary cache; the listed id is served under its own file name;
the executor's completed write carries only the job's own segment id; and
distinct job ids derive distinct segment ids. -/
theorem C10_segment_isolation_witness :
    (Edge.get_segment_audio "j1" "zz" { Fx.stCE0 with cache := [("zz.mp3", 7)] } =
      Except.error ⟨404, "Segment not found"⟩) ∧
    ("j1-seg-0" = Edge.generate_segment_id "j1" 0 ∧
      (⟨"j1-seg-0.mp3", "audio/mpeg", "j1-seg-0.mp3"⟩ : AudioResponse).path =
        Edge.cachePathName "j1" (Edge.generate_segment_id "j1" 0)) ∧
    ((Edge.completedSegment "j1" "j1-seg-0" 2 []).id = Edge.generate_segment_id "j1" 0) ∧
    (Edge.generate_segment_id "j1" 0 ≠ Edge.generate_segment_id "j2" 0) ∧
    (Espeak.get_segment_audio "j1" "zz" { Fx.stCS0 with cache := [("zz.wav", 7)] } =
      Except.error ⟨404, "Segment not found"⟩) ∧
    ("j1-seg-0" = Espeak.generate_segment_id "j1" 0 ∧
      (⟨"j1-seg-0.wav", "audio/wav", "j1-seg-0.wav"⟩ : AudioResponse).path =
        Espeak.cachePathName "j1" (Espeak.generate_segment_id "j1" 0)) ∧
    ((Espeak.completedSegment "j1" "j1-seg-0" 4).id = Espeak.generate_segment_id "j1" 0) ∧
    (Espeak.generate_segment_id "j1" 0 ≠ Espeak.generate_segment_id "j2" 0) :=
  ⟨C10_segment_isolation.1 "j1" "zz" Fx.stCE0 Fx.jdCE [("zz.mp3", 7)] (by decide)
     (by decide) (by decide),
   C10_segment_isolation.2.1 "j1" "j1-seg-0" Fx.stCE1 Fx.jdCE
     ⟨"j1-seg-0.mp3", "audio/mpeg", "j1-seg-0.mp3"⟩ (by decide) (by decide) (by rfl),
   C10_segment_isolation.2.2.1 "j1"
     (Edge.SynthOutcome.stream [Edge.StreamEvent.audio [1, 2]]) Fx.jdPendE (by decide)
     "edge-tts:job:j1"
     ⟨"j1", .completed, "t", 2, "v", none, [Edge.completedSegment "j1" "j1-seg-0" 2 []], none⟩
     3600 (by decide) (Edge.completedSegment "j1" "j1-seg-0" 2 []) (by decide),
   C10_segment_isolation.2.2.2.1 "j1" "j2" (by decide),
   C10_segment_isolation.2.2.2.2.1 "j1" "zz" Fx.stCS0 Fx.jdCS [("zz.wav", 7)] (by decide)
     (by decide) (by decide),
   C10_segment_isolation.2.2.2.2.2.1 "j1" "j1-seg-0" Fx.stCS1 Fx.jdCS
     ⟨"j1-seg-0.wav", "audio/wav", "j1-seg-0.wav"⟩ (by decide) (by decide) (by rfl),
   C10_segment_isolation.2.2.2.2.2.2.1 "j1" (Espeak.SynthOutcome.ranOk 4) Fx.jdPendS
     (by decide) "espeak-tts:job:j1"
     ⟨"j1", .completed, "t", 2, "v", some false, [Espeak.completedSegment "j1" "j1-seg-0" 4],
       none⟩
     3600 (by decide) (Espeak.completedSegment "j1" "j1-seg-0" 4) (by decide),
   C10_segment_isolation.2.2.2.2.2.2.2 "j1" "j2" (by decide)⟩

/-- C2 counterexample: the edge executor checks only that the backend
delivered at least one audio *chunk* (`if audio_chunks:`), not that the
bytes are nonzero.  Feeding the stream `[audio b""]` — one empty chunk —
to a pending job ends it `completed` while its cache file exists with byte
size 0, refuting "byte size greater than zero" as stated. -/
theorem C2_completed_nonzero_counterexample :
    (Edge.get_job (Edge.process_job_with_new_redis "j1" "x" "v"
        (Edge.SynthOutcome.stream [Edge.StreamEvent.audio []]) Fx.stPendE) "j1").map
        (fun r => r.status) = some Status.completed ∧
    fsSize (Edge.process_job_with_new_redis "j1" "x" "v"
        (Edge.SynthOutcome.stream [Edge.StreamEvent.audio []]) Fx.stPendE)
      (Edge.cachePathName "j1" (Edge.generate_segment_id "j1" 0)) = some 0 := by decide

/-- C2 (amended): if a processed job ends `completed`, its segment's cache
file exists; in the edge service its size equals the total byte length of
the backend's audio chunks, of which at least one arrived (the total may
still be zero); in the espeak service the size is strictly positive. -/
theorem C2_completed_cache_amended :
    (∀ (job_id text voice : String) (outcome : Edge.SynthOutcome) (st : Store)
        (jd0 : JobRecord),
        redisGet st (Edge.jobKey job_id) = some jd0 →
        ∀ r, redisGet (Edge.process_job_with_new_redis job_id text voice outcome st)
            (Edge.jobKey job_id) = some r →
          r.status = Status.completed →
          ∃ events, outcome = Edge.SynthOutcome.stream events ∧
            Edge.audioChunks events ≠ [] ∧
            fsSize (Edge.process_job_with_new_redis job_id text voice outcome st)
                (Edge.cachePathName job_id (Edge.generate_segment_id job_id 0)) =
              some (List.sum ((Edge.audioChunks events).map List.length))) ∧
    (∀ (job_id text voice : String) (prefer_phonemes : Bool)
        (outcome : Espeak.SynthOutcome) (st : Store) (jd0 : JobRecord),
        redisGet st (Espeak.jobKey job_id) = some jd0 →
        ∀ r, redisGet (Espeak.process_job_with_new_redis job_id text voice
            prefer_phonemes outcome st) (Espeak.jobKey job_id) = some r →
          r.status = Status.completed →
          ∃ size, outcome = Espeak.SynthOutcome.ranOk size ∧ 0 < size ∧
            fsSize (Espeak.process_job_with_new_redis job_id text voice
                prefer_phonemes outcome st)
                (Espeak.cachePathName job_id (Espeak.generate_segment_id job_id 0)) =
              some size) := by
  constructor
  · intro job_id text voice outcome st jd0 h r hr hc
    unfold Edge.process_job_with_new_redis at hr ⊢
    rw [h] at hr ⊢
    cases outcome with
    | exn m =>
      simp only [Edge.synthesize_text_with_timing, Bool.false_and, Bool.false_eq_true,
        if_false, reduceIte] at hr
      rw [redisGet_set_self _ _ _ _ (by decide)] at hr
      obtain rfl : _ = r := Option.some_injective _ hr
      simp at hc
    | stream events =>
      by_cases hch : Edge.audioChunks events = []
      · simp only [Edge.synthesize_text_with_timing, hch, ne_eq, not_true_eq_false,
          Bool.false_and, Bool.false_eq_true, if_false, reduceIte] at hr
        rw [redisGet_set_self _ _ _ _ (by decide)] at hr
        obtain rfl : _ = r := Option.some_injective _ hr
        simp at hc
      · refine ⟨events, rfl, hch, ?_⟩
        simp only [Edge.synthesize_text_with_timing, hch, ne_eq, not_false_eq_true,
          if_true, reduceIte, fsExists_fsWrite_self, Bool.true_and]
        rw [fsSize_redisSet]
        exact fsSize_fsWrite_self _ _ _
  · intro job_id text voice prefer_phonemes outcome st jd0 h r hr hc
    unfold Espeak.process_job_with_new_redis at hr ⊢
    rw [h] at hr ⊢
    cases outcome with
    | ranOk size =>
      by_cases hs : 0 < size
      · refine ⟨size, rfl, hs, ?_⟩
        simp only [Espeak.synthesize_text, fsExists_fsWrite_self, fsSize_fsWrite_self,
          Option.getD_some, Bool.true_and, hs, decide_True, if_true]
        rw [fsSize_redisSet]
        exact fsSize_fsWrite_self _ _ _
      · simp only [Espeak.synthesize_text, fsExists_fsWrite_self, fsSize_fsWrite_self,
          Option.getD_some, Bool.true_and, hs, decide_False, Bool.false_and,
          Bool.false_eq_true, if_false, reduceIte] at hr
        rw [redisGet_set_self _ _ _ _ (by decide)] at hr
        obtain rfl : _ = r := Option.some_injective _ hr
        simp at hc
    | ranFail e =>
      simp only [Espeak.synthesize_text, Bool.false_and, Bool.false_eq_true,
        if_false, reduceIte] at hr
      rw [redisGet_set_self _ _ _ _ (by decide)] at hr
      obtain rfl : _ = r := Option.some_injective _ hr
      simp at hc
    | timeout =>
      simp only [Espeak.synthesize_text, Bool.false_and, Bool.false_eq_true,
        if_false, reduceIte] at hr
      rw [redisGet_set_self _ _ _ _ (by decide)] at hr
      obtain rfl : _ = r := Option.some_injective _ hr
      simp at hc
    | exn m =>
      simp only [Espeak.synthesize_text, Bool.false_and, Bool.false_eq_true,
        if_false, reduceIte] at hr
      rw [redisGet_set_self _ _ _ _ (by decide)] at hr
      obtain rfl : _ = r := Option.some_injective _ hr
      simp at hc

/-- Witness for the amended C2 at concrete inputs: an edge run that streamed
the two bytes `[1, 2]` and an espeak run that wrote 4 bytes both end
`completed` with the cache file of the corresponding size present. -/
theorem C2_completed_cache_amended_witness :
    (∃ events, Edge.SynthOutcome.stream [Edge.StreamEvent.audio [1, 2]] =
        Edge.SynthOutcome.stream events ∧
      Edge.audioChunks events ≠ [] ∧
      fsSize (Edge.process_job_with_new_redis "j1" "x" "v"
          (Edge.SynthOutcome.stream [Edge.StreamEvent.audio [1, 2]]) Fx.stPendE)
          (Edge.cachePathName "j1" (Edge.generate_segment_id "j1" 0)) =
        some (List.sum ((Edge.audioChunks events).map List.length))) ∧
    (∃ size, Espeak.SynthOutcome.ranOk 4 = Espeak.SynthOutcome.ranOk size ∧ 0 < size ∧
      fsSize (Espeak.process_job_with_new_redis "j1" "x" "v" false
          (Espeak.SynthOutcome.ranOk 4) Fx.stPendS)
          (Espeak.cachePathName "j1" (Espeak.generate_segment_id "j1" 0)) =
        some size) :=
  ⟨C2_completed_cache_amended.1 "j1" "x" "v"
     (Edge.SynthOutcome.stream [Edge.StreamEvent.audio [1, 2]]) Fx.stPendE Fx.jdPendE
     (by decide)
     ⟨"j1", .completed, "t", 2, "v", none, [Edge.completedSegment "j1" "j1-seg-0" 2 []], none⟩
     (by decide) (by decide),
   C2_completed_cache_amended.2 "j1" "x" "v" false (Espeak.SynthOutcome.ranOk 4)
     Fx.stPendS Fx.jdPendS (by decide)
     ⟨"j1", .completed, "t", 2, "v", some false, [Espeak.completedSegment "j1" "j1-seg-0" 4],
       none⟩
     (by decide) (by decide)⟩
